import Mathlib

/-!
Verification of the cd-mcp repository's upstream-API adaptation layer
(`src/cd-api.ts`, class `CdApiClient`), as a shallow embedding.

JS strings are modelled as `List Char`.  JS numbers that are integers on
every path of interest are modelled as `Int`/`Nat`; the only fractional
values (prices divided by 100) are modelled as `ℚ`.  `NaN` propagation is
modelled with `Option`.  Thrown exceptions are modelled with `Except JsErr`.
Network calls are modelled by passing the upstream's responses in as
explicit arguments, and the sequence of endpoints contacted is returned as
an explicit call trace.
-/

namespace CdMcp

/-- JS strings, modelled as their character lists. -/
abbrev Str := List Char

/-! ## Decimal digit strings

`natDigs n` is the standard decimal digit string of `n`, as produced by JS
number-to-string conversion for integral values below 1e21 (no exponent,
no padding).  `parseNatDigits` is the value of a digit string, as computed
by `parseInt(_, 10)` on a pure digit string. -/

/-- Tail-recursive digit accumulation; the fuel argument makes the
recursion structural, so the kernel can evaluate it. -/
def natDigsGo : Nat → Nat → Str → Str
  | 0, _, acc => acc
  | fuel + 1, n, acc =>
    if n < 10 then Char.ofNat (48 + n) :: acc
    else natDigsGo fuel (n / 10) (Char.ofNat (48 + n % 10) :: acc)

/-- Decimal digits of a natural number, most significant first. -/
def natDigs (n : Nat) : Str := natDigsGo (n + 1) n []

/-- Reference form of `natDigs` with the textbook recursion; `natDigs_eq_R`
identifies the two. -/
def natDigsR (n : Nat) : Str :=
  if _h : n < 10 then [Char.ofNat (48 + n)]
  else natDigsR (n / 10) ++ [Char.ofNat (48 + n % 10)]
  decreasing_by exact Nat.div_lt_self (by omega) (by omega)

/-- JS `String(i)` / template interpolation for an integral number. -/
def jsIntToString (i : Int) : Str :=
  if i < 0 then '-' :: natDigs i.natAbs else natDigs i.toNat

/-- Value of a digit string (the core loop of `parseInt(s, 10)`). -/
def parseNatDigits (ds : Str) : Nat :=
  ds.foldl (fun a c => a * 10 + (c.toNat - 48)) 0

/-- JS `parseInt(g, 10)` for a group `g` matching `-?\d+`. -/
def parseIntGroup (g : Str) : Int :=
  if g.head? = some '-' then -(parseNatDigits g.tail : Int) else (parseNatDigits g : Int)

/-- Attempt the wrapper-date pattern at the start of the string; returns
the capture group `-?\d+` on success. -/
def matchAt (s : Str) : Option Str :=
  match s with
  | '/' :: 'D' :: 'a' :: 't' :: 'e' :: '(' :: rest =>
    let sign : Str := if rest.head? = some '-' then ['-'] else []
    let rest2 := if rest.head? = some '-' then rest.tail else rest
    let digs := rest2.takeWhile Char.isDigit
    if digs = [] then none
    else
      match rest2.drop digs.length with
      | ')' :: '/' :: _ => some (sign ++ digs)
      | _ => none
  | _ => none

/-- Leftmost match of the wrapper-date pattern, as JS `String.match` finds it. -/
def findDateMatch : Str → Option Str
  | [] => none
  | c :: rest =>
    match matchAt (c :: rest) with
    | some g => some g
    | none => findDateMatch rest

/-- Encoding of a departure instant for the upstream request body
(cd-api.ts, `searchConnections`): the template `/Date(${depMs})/`. -/
def dtDateTimeEncode (ms : Int) : Str :=
  '/' :: 'D' :: 'a' :: 't' :: 'e' :: '(' :: (jsIntToString ms ++ [')', '/'])

/-- Smallest time value representable by a JS `Date` (milliseconds). -/
def dateMin : Int := -8640000000000000

/-- Largest time value representable by a JS `Date` (milliseconds). -/
def dateMax : Int := 8640000000000000

/-- Whether the March-based year `yoe` (0-based within a 400-year era) is
long, i.e. whether calendar year `yoe + 1` of the era is a leap year
(its February belongs to March-year `yoe`). -/
def marchLeap (yoe : Nat) : Bool :=
  ((yoe + 1) % 4 == 0 && (yoe + 1) % 100 != 0) || yoe == 399

/-- Number of days in March-based year `yoe` of an era. -/
def marchYearLen (yoe : Nat) : Nat := if marchLeap yoe then 366 else 365

/-- Number of days in March-based month `mp` (0 = March, ..., 11 = February). -/
def marchMonthLen (leap : Bool) : Nat → Nat
  | 0 => 31 | 1 => 30 | 2 => 31 | 3 => 30 | 4 => 31 | 5 => 31
  | 6 => 30 | 7 => 31 | 8 => 30 | 9 => 31 | 10 => 31
  | _ => if leap then 29 else 28

/-- Cumulative search: starting at index `i`, repeatedly subtract `len i`
from `d` while it fits, for at most `fuel` steps; returns the final index
and remainder. -/
def cumFind (len : Nat → Nat) : Nat → Nat → Nat → Nat × Nat
  | 0, i, d => (i, d)
  | fuel + 1, i, d => if d < len i then (i, d) else cumFind len fuel (i + 1) (d - len i)

/-- Sum of `len i, len (i+1), ..., len (i+k-1)`. -/
def partSum (len : Nat → Nat) : Nat → Nat → Nat
  | _, 0 => 0
  | i, k + 1 => len i + partSum len (i + 1) k

/-- Cumulative starting offset: `cumStart len k = len 0 + ... + len (k-1)`. -/
def cumStart (len : Nat → Nat) : Nat → Nat
  | 0 => 0
  | k + 1 => cumStart len k + len k

/-- Days-since-epoch to calendar date `(year, month 1..12, day 1..31)`,
the YearFromTime/MonthFromTime/DateFromTime functions of ECMA-262. -/
def civilFromDays (z : Int) : Int × Nat × Nat :=
  let zz := z + 719468
  let era := zz / 146097
  let doe := (zz - era * 146097).toNat
  let yd := cumFind marchYearLen 400 0 doe
  let md := cumFind (marchMonthLen (marchLeap yd.1)) 12 0 yd.2
  let m := if md.1 < 10 then md.1 + 3 else md.1 - 9
  (era * 400 + yd.1 + (if m ≤ 2 then 1 else 0), m, md.2 + 1)

/-- Calendar date to days-since-epoch, the MakeDay function of ECMA-262
(restricted to in-range month and day). -/
def daysFromCivil (y : Int) (m : Nat) (d : Nat) : Int :=
  let y' := y - (if m ≤ 2 then 1 else 0)
  let era := y' / 400
  let yoe := (y' - era * 400).toNat
  let mp := if 3 ≤ m then m - 3 else m + 9
  let doy := cumStart (marchMonthLen (marchLeap yoe)) mp + (d - 1)
  let doe := cumStart marchYearLen yoe + doy
  era * 146097 + (doe : Int) - 719468

/-- Zero-pad the decimal digits of `n` to width `w`. -/
def pad (w n : Nat) : Str := List.replicate (w - (natDigs n).length) '0' ++ natDigs n

/-- ECMA-262 `Date.prototype.toISOString` on an in-range time value `ms`. -/
def toISOString (ms : Int) : Str :=
  let z := ms / 86400000
  let tod := (ms - z * 86400000).toNat
  let c := civilFromDays z
  let yearStr :=
    if 0 ≤ c.1 ∧ c.1 ≤ 9999 then pad 4 c.1.toNat
    else (if c.1 < 0 then ['-'] else ['+']) ++ pad 6 c.1.natAbs
  yearStr ++ '-' :: pad 2 c.2.1 ++ '-' :: pad 2 c.2.2 ++
    'T' :: pad 2 (tod / 3600000) ++ ':' :: pad 2 (tod % 3600000 / 60000) ++
    ':' :: pad 2 (tod % 60000 / 1000) ++ '.' :: pad 3 (tod % 1000) ++ ['Z']

/-- Read exactly `k` decimal digits, extending the accumulator `acc`. -/
def readDigits : Nat → Nat → Str → Option (Nat × Str)
  | 0, acc, s => some (acc, s)
  | k + 1, acc, s =>
    match s with
    | c :: r => if c.isDigit then readDigits k (acc * 10 + (c.toNat - 48)) r else none
    | [] => none

/-- Consume one expected literal character. -/
def expectC (c : Char) : Str → Option Str
  | x :: r => if x = c then some r else none
  | [] => none

/-- Gregorian leap-year rule on calendar years (ECMA-262 InLeapYear). -/
def isLeapCal (y : Int) : Bool := (y % 4 == 0 && y % 100 != 0) || y % 400 == 0

/-- Days in calendar month `mo` (1..12) of year `y` (ECMA-262 DaysInMonth). -/
def daysInCalMonth (y : Int) : Nat → Nat
  | 1 => 31 | 2 => if isLeapCal y then 29 else 28 | 3 => 31 | 4 => 30
  | 5 => 31 | 6 => 30 | 7 => 31 | 8 => 31 | 9 => 30 | 10 => 31
  | 11 => 30 | 12 => 31 | _ => 0

/-- Succeeds exactly on the empty remainder (the parsed string must end
after the UTC designator). -/
def endOfInput : Str → Option Unit
  | [] => some ()
  | _ => none

/-- Validate the parsed fields and build the time value: the MakeDay,
MakeTime and TimeClip steps of ECMA-262 date parsing. -/
def validParts (y : Int) (mo dd hh mi ss mss : Nat) : Option Int :=
  if 1 ≤ mo ∧ mo ≤ 12 ∧ 1 ≤ dd ∧ dd ≤ daysInCalMonth y mo ∧
      (hh ≤ 23 ∨ (hh = 24 ∧ mi = 0 ∧ ss = 0 ∧ mss = 0)) ∧ mi ≤ 59 ∧ ss ≤ 59 then
    if dateMin ≤ daysFromCivil y mo dd * 86400000 +
          ((hh * 3600000 + mi * 60000 + ss * 1000 + mss : Nat) : Int) ∧
        daysFromCivil y mo dd * 86400000 +
          ((hh * 3600000 + mi * 60000 + ss * 1000 + mss : Nat) : Int) ≤ dateMax then
      some (daysFromCivil y mo dd * 86400000 +
        ((hh * 3600000 + mi * 60000 + ss * 1000 + mss : Nat) : Int))
    else none
  else none

/-- Parse the remainder `-MM-DDTHH:mm:ss.sssZ` of a Date Time String after
the year, validate the field ranges, and build the time value. -/
def finishParse (y : Int) (r1 : Str) : Option Int :=
  (expectC '-' r1).bind fun r2 =>
  (readDigits 2 0 r2).bind fun p1 =>
  (expectC '-' p1.2).bind fun r4 =>
  (readDigits 2 0 r4).bind fun p2 =>
  (expectC 'T' p2.2).bind fun r6 =>
  (readDigits 2 0 r6).bind fun p3 =>
  (expectC ':' p3.2).bind fun r8 =>
  (readDigits 2 0 r8).bind fun p4 =>
  (expectC ':' p4.2).bind fun r10 =>
  (readDigits 2 0 r10).bind fun p5 =>
  (expectC '.' p5.2).bind fun r12 =>
  (readDigits 3 0 r12).bind fun p6 =>
  (expectC 'Z' p6.2).bind fun r14 =>
  (endOfInput r14).bind fun _ =>
  validParts y p1.1 p2.1 p3.1 p4.1 p5.1 p6.1

/-- ECMA-262 parsing of a Date Time String (`Date.parse` on the UTC
`Z`-designated complete form); `none` models `NaN`. -/
def jsDateParse (s : Str) : Option Int :=
  match s with
  | [] => none
  | c :: r =>
    if c = '+' then (readDigits 6 0 r).bind fun p => finishParse ((p.1 : Nat) : Int) p.2
    else if c = '-' then
      (readDigits 6 0 r).bind fun p =>
        if p.1 = 0 then none else finishParse (-(p.1 : Int)) p.2
    else (readDigits 4 0 (c :: r)).bind fun p => finishParse ((p.1 : Int)) p.2

/-- A thrown JS exception. -/
inductive JsErr where
  | err : Str → JsErr
  | rangeErr : JsErr
deriving DecidableEq

deriving instance DecidableEq for Except

/-- The private `parseDate` method of `CdApiClient` (cd-api.ts):
`raw.match(/\/Date\((-?\d+)\)\//)`; on no match the raw string is returned
unchanged, otherwise `new Date(parseInt(match[1], 10)).toISOString()`,
which throws a `RangeError` when the value is outside the representable
range. -/
def parseDate (raw : Str) : Except JsErr Str :=
  match findDateMatch raw with
  | none => .ok raw
  | some g =>
    if dateMin ≤ parseIntGroup g ∧ parseIntGroup g ≤ dateMax then
      .ok (toISOString (parseIntGroup g))
    else .error .rangeErr

/-- The wrapper-date value carried by a string: the matched embedded
integer when it is a representable time value, else `none`. -/
def dtMs (s : Str) : Option Int :=
  match findDateMatch s with
  | none => none
  | some g =>
    if dateMin ≤ parseIntGroup g ∧ parseIntGroup g ≤ dateMax then
      some (parseIntGroup g)
    else none

/-! ## Domain model and raw upstream types (cd-api.ts interfaces) -/

/-- Item of a station-search response (`StationSearchItem.oItem`). -/
structure OItemR where
  iListID : Int
  sName : Str
deriving DecidableEq

/-- One element of a `SearchGlobalListItemInfoExt` response. -/
structure StationSearchItem where
  oItem : OItemR
deriving DecidableEq

/-- One travel segment of a raw connection (`RawLeg`).  The optional
fields model properties that may be absent from the upstream JSON. -/
structure RawLeg where
  dtDateTime1 : Str
  dtDateTime2 : Str
  sStationName1 : Str
  sStationName2 : Str
  sType : Option Str
  sNum1 : Option Str
  sNum2 : Option Str
  sNum3 : Option Str
deriving DecidableEq

/-- A raw connection record (`RawConnection`). -/
structure RawConnection where
  iID : Int
  aoTrains : List RawLeg
deriving DecidableEq

/-- The `oConnInfo` object of a `SearchConnectionInfo1` response; the
connection list is optional because the source guards its presence with
`result?.oConnInfo?.aoConnections`. -/
structure OConnInfoR where
  aoConnections : Option (List RawConnection)
deriving DecidableEq

/-- A `SearchConnectionInfo1` response (`ConnectionInfo`). -/
structure ConnectionInfoR where
  iHandle : Int
  oConnInfo : Option OConnInfoR
deriving DecidableEq

/-- One element of a `GetConnectionsPrice` response (`PriceInfo`); the
source defends against an absent field with `p.iPrice || 0`. -/
structure PriceInfo where
  iPrice : Option Int
deriving DecidableEq

/-- A resolved station (`StationInfo`). -/
structure StationInfo where
  id : Int
  name : Str
deriving DecidableEq

/-- A price on a domain connection (the `price` object built in
`searchConnections`). -/
structure Money where
  amount : ℚ
  currency : Str
deriving DecidableEq

/-- A domain leg (`ConnectionLeg`).  The source's `from`/`to` fields are
named `from_`/`to_` because `from` is a Lean keyword. -/
structure ConnectionLeg where
  from_ : Str
  to_ : Str
  departure : Str
  arrival : Str
  trainType : Option Str
  trainNumber : Str
deriving DecidableEq

/-- A domain connection (`Connection`).  `duration` is `none` when the JS
computation yields `NaN`. -/
structure Connection where
  id : Str
  departure : Str
  arrival : Str
  duration : Option Int
  transfers : Int
  legs : List ConnectionLeg
  price : Option Money
deriving DecidableEq

/-- A `searchConnections` result (`ConnectionSearchResult`); `handle` is
absent on the early empty-result return. -/
structure ConnectionSearchResult where
  handle : Option Str
  connections : List Connection
deriving DecidableEq

/-- A domain location (`Location`). -/
structure LocationR where
  key : Str
  name : Str
  type : Str
deriving DecidableEq

/-- The upstream endpoints contacted by `searchConnections`, in order. -/
inductive CallTag where
  | station : Str → CallTag
  | createSession : CallTag
  | searchConn : CallTag
  | getPrice : CallTag
deriving DecidableEq

/-- The four network responses one `searchConnections` run consumes.  A
`.error` value models a rejected `postRequest` (transport failure); inside
`.ok`, `none` models a JSON `null`/absent body where the source guards
with optional chaining. -/
structure Upstream where
  fromResp : Except JsErr (Option (List StationSearchItem))
  toResp : Except JsErr (Option (List StationSearchItem))
  sessionResp : Except JsErr Str
  searchResp : Except JsErr ConnectionInfoR
  priceResp : Except JsErr (Option (List PriceInfo))

/-! ## Client operations -/

/-- JS `a || b` for an optional string `a` (empty string is falsy). -/
def jsOr (a : Option Str) (b : Str) : Str :=
  match a with
  | some s => if s = [] then b else s
  | none => b

/-- JS `Math.round(n / den)` for integers with `den > 0`, i.e.
`floor(n/den + 1/2)`, expressed integrally; `mathRound_div_eq` below
verifies the floor form. -/
def jsRoundDiv (n den : Int) : Int := (2 * n + den) / (2 * den)

/-- The message of the error thrown when a station query has no candidates. -/
def notFoundMsg (mask : Str) : Str :=
  "Station not found: ".data ++ mask

/-- The private `searchStation` method: takes the first item of the
response, or throws `Station not found: <mask>`. -/
def searchStationR (mask : Str) (resp : Except JsErr (Option (List StationSearchItem))) :
    Except JsErr StationInfo :=
  match resp with
  | .error e => .error e
  | .ok r =>
    match (r.getD []).head? with
    | none => .error (.err (notFoundMsg mask))
    | some item => .ok ⟨item.oItem.iListID, item.oItem.sName⟩

/-- JS `Array.prototype.join(' ')`. -/
def joinSpace : List Str → Str
  | [] => []
  | [x] => x
  | x :: xs => x ++ ' ' :: joinSpace xs

/-- Builds the `trainNumber` field: `[sNum1, sNum2, sNum3].filter(Boolean).join(' ')`
(absent and empty entries are dropped). -/
def joinNums (n1 n2 n3 : Option Str) : Str :=
  joinSpace (([n1, n2, n3].filterMap id).filter (· ≠ []))

/-- The leg mapping inside `searchConnections`: both timestamps are fed
through `parseDate`, which can throw. -/
def buildLeg (leg : RawLeg) : Except JsErr ConnectionLeg :=
  (parseDate leg.dtDateTime1).bind fun dep =>
  (parseDate leg.dtDateTime2).bind fun arr =>
  .ok { from_ := leg.sStationName1, to_ := leg.sStationName2, departure := dep, arrival := arr,
        trainType := leg.sType, trainNumber := joinNums leg.sNum1 leg.sNum2 leg.sNum3 }

/-- The duration computation of `searchConnections`:
`Math.round((arrTime.getTime() - depTime.getTime()) / 60000)`; `none`
models `NaN` from an unparseable endpoint string. -/
def durationOf (depStr arrStr : Str) : Option Int :=
  (jsDateParse arrStr).bind fun a =>
  (jsDateParse depStr).bind fun dp =>
  some (jsRoundDiv (a - dp) 60000)

/-- The per-connection transform inside `searchConnections`: maps the
legs, derives endpoint strings with the `departure`-argument fallback,
re-parses them to compute the duration, and attaches the positional price
when it is present and positive. -/
def buildConnection (departure : Str) (prices : List ℚ) (idx : Nat) (conn : RawConnection) :
    Except JsErr Connection :=
  (conn.aoTrains.mapM buildLeg).bind fun legs =>
  .ok { id := jsIntToString conn.iID,
        departure := jsOr ((legs.head?).map ConnectionLeg.departure) departure,
        arrival := jsOr ((legs.getLast?).map ConnectionLeg.arrival) departure,
        duration := durationOf (jsOr ((legs.head?).map ConnectionLeg.departure) departure)
          (jsOr ((legs.getLast?).map ConnectionLeg.arrival) departure),
        transfers := (conn.aoTrains.length : Int) - 1,
        legs := legs,
        price :=
          match prices.get? idx with
          | some p => if 0 < p then some ⟨p, "CZK".data⟩ else none
          | none => none }

/-- The price list computed before the merge: on success
`(priceResult || []).map(p => (p.iPrice || 0) / 100)`, on a caught failure
one zero per raw connection. -/
def priceList (raws : List RawConnection) (priceResp : Except JsErr (Option (List PriceInfo))) :
    List ℚ :=
  match priceResp with
  | .ok pr => (pr.getD []).map fun p => ((p.iPrice.getD 0 : Int) : ℚ) / 100
  | .error _ => raws.map fun _ => 0

/-- The `searchLocations` method: the optional type filter `ty` is the
`_type` parameter, which the request body and the result mapping never
consult. -/
def searchLocations (query : Str) (ty : Option Str)
    (resp : Except JsErr (Option (List StationSearchItem))) : Except JsErr (List LocationR) :=
  resp.map fun r =>
    (r.getD []).map fun item =>
      ⟨jsIntToString item.oItem.iListID, item.oItem.sName, "station".data⟩

/-- The `searchConnections` method.  Returns the result (or the thrown
error) together with the trace of upstream endpoints contacted, in call
order.  The two station resolutions run under `Promise.all`; both calls
are always issued, and when both fail the JS rejection order depends on
network timing — the model reports the `from` failure first. -/
def searchConnections (fromQ toQ departure : Str) (passengers : Nat) (u : Upstream) :
    Except JsErr ConnectionSearchResult × List CallTag :=
  let t0 := [CallTag.station fromQ, CallTag.station toQ]
  match searchStationR fromQ u.fromResp with
  | .error e => (.error e, t0)
  | .ok _fromStation =>
    match searchStationR toQ u.toResp with
    | .error e => (.error e, t0)
    | .ok _toStation =>
      let t1 := t0 ++ [CallTag.createSession]
      match u.sessionResp with
      | .error e => (.error e, t1)
      | .ok _sessionID =>
        let t2 := t1 ++ [CallTag.searchConn]
        match u.searchResp with
        | .error e => (.error e, t2)
        | .ok result =>
          match result.oConnInfo.bind OConnInfoR.aoConnections with
          | none => (.ok ⟨none, []⟩, t2)
          | some raws =>
            let t3 := t2 ++ [CallTag.getPrice]
            let prices := priceList raws u.priceResp
            (match (raws.enum.mapM fun p => buildConnection departure prices p.1 p.2) with
             | .error e => .error e
             | .ok connections => .ok ⟨some (jsIntToString result.iHandle), connections⟩,
             t3)

/-! ## Helpers for stating and proving the claims -/

/-- Whether an `Except` value is a success. -/
def exceptOk {ε α : Type} : Except ε α → Bool
  | .ok _ => true
  | .error _ => false

/-- The success value of an `Except`, or `none`. -/
def okValue {ε α : Type} : Except ε α → Option α
  | .ok a => some a
  | .error _ => none

/-- The string carried by a successful `parseDate`, with `[]` as a dummy
for the error case. -/
def exceptD : Except JsErr Str → Str
  | .ok s => s
  | .error _ => []

/-- Both timestamps of a raw leg decode without throwing. -/
def legDatesOk (leg : RawLeg) : Bool :=
  exceptOk (parseDate leg.dtDateTime1) && exceptOk (parseDate leg.dtDateTime2)

/-- The domain leg produced for a raw leg whose timestamps do not throw. -/
def legOfOk (leg : RawLeg) : ConnectionLeg :=
  { from_ := leg.sStationName1, to_ := leg.sStationName2,
    departure := exceptD (parseDate leg.dtDateTime1),
    arrival := exceptD (parseDate leg.dtDateTime2),
    trainType := leg.sType, trainNumber := joinNums leg.sNum1 leg.sNum2 leg.sNum3 }

/-- The domain connection produced for a raw connection whose legs all
decode without throwing. -/
def connOfOk (departure : Str) (prices : List ℚ) (idx : Nat) (conn : RawConnection) : Connection :=
  { id := jsIntToString conn.iID,
    departure := jsOr (((conn.aoTrains.map legOfOk).head?).map ConnectionLeg.departure) departure,
    arrival := jsOr (((conn.aoTrains.map legOfOk).getLast?).map ConnectionLeg.arrival) departure,
    duration := durationOf
      (jsOr (((conn.aoTrains.map legOfOk).head?).map ConnectionLeg.departure) departure)
      (jsOr (((conn.aoTrains.map legOfOk).getLast?).map ConnectionLeg.arrival) departure),
    transfers := (conn.aoTrains.length : Int) - 1,
    legs := conn.aoTrains.map legOfOk,
    price :=
      match prices.get? idx with
      | some p => if 0 < p then some ⟨p, "CZK".data⟩ else none
      | none => none }

/-- A one-candidate response for the from query. -/
def stationA : StationSearchItem := ⟨⟨10, ['A']⟩⟩

/-- A one-candidate response for the to query. -/
def stationB : StationSearchItem := ⟨⟨20, ['B']⟩⟩

/-- A leg whose timestamps do not match the wrapper pattern (decoded
strings pass through unchanged, nothing throws). -/
def goodLeg : RawLeg := ⟨['x'], ['y'], ['P'], ['Q'], none, none, none, none⟩

/-- A leg whose departure wrapper carries a value one beyond the
representable Date range, making `parseDate` throw. -/
def badLeg : RawLeg := ⟨"/Date(8640000000000001)/".data, ['y'], ['P'], ['Q'], none, none, none, none⟩

/-- A leg that arrives 1000 minutes before it departs. -/
def negLeg : RawLeg := ⟨"/Date(60000000)/".data, "/Date(0)/".data, ['P'], ['Q'], none, none, none, none⟩

/-- A leg with in-range wrapper timestamps in the right order. -/
def posLeg : RawLeg := ⟨"/Date(0)/".data, "/Date(60000000)/".data, ['P'], ['Q'], none, none, none, none⟩

/-- An upstream whose station and session calls succeed, with the given
search and price responses. -/
def mkUpstream (search : Except JsErr ConnectionInfoR)
    (price : Except JsErr (Option (List PriceInfo))) : Upstream :=
  ⟨.ok (some [stationA]), .ok (some [stationB]), .ok ['s'], search, price⟩


/-! ## Theorems -/

theorem natDigsGo_spec : ∀ (fuel n : Nat) (acc : Str), n < fuel →
    natDigsGo fuel n acc = natDigsR n ++ acc := by
  intro fuel
  induction fuel with
  | zero => intro n acc h; omega
  | succ f ih =>
    intro n acc h
    rw [natDigsGo]
    split
    · rename_i h10
      rw [natDigsR, dif_pos h10]
      rfl
    · rename_i h10
      have hn10 : n / 10 < f := by
        have h1 : n / 10 < n := Nat.div_lt_self (by omega) (by omega)
        omega
      rw [ih (n / 10) _ hn10]
      conv_rhs => rw [natDigsR]
      rw [dif_neg h10, List.append_assoc]
      rfl

theorem natDigs_eq_R (n : Nat) : natDigs n = natDigsR n := by
  show natDigsGo (n + 1) n [] = _
  rw [natDigsGo_spec (n + 1) n [] (by omega), List.append_nil]

theorem natDigsR_ne_nil (n : Nat) : natDigsR n ≠ [] := by
  rw [natDigsR]
  split
  · simp
  · simp

theorem natDigs_ne_nil (n : Nat) : natDigs n ≠ [] := by
  rw [natDigs_eq_R]
  exact natDigsR_ne_nil n

theorem char_ofNat_digit_isDigit {d : Nat} (h : d < 10) : (Char.ofNat (48 + d)).isDigit = true := by
  interval_cases d <;> decide

theorem char_ofNat_digit_toNat {d : Nat} (h : d < 10) : (Char.ofNat (48 + d)).toNat = 48 + d := by
  interval_cases d <;> decide

theorem natDigsR_all_digits (n : Nat) : ∀ c ∈ natDigsR n, c.isDigit = true := by
  induction n using Nat.strong_induction_on with
  | _ n ih =>
    rw [natDigsR]
    split
    · intro c hc
      simp at hc
      subst hc
      exact char_ofNat_digit_isDigit (by omega)
    · intro c hc
      rw [List.mem_append] at hc
      rcases hc with hc | hc
      · exact ih (n / 10) (Nat.div_lt_self (by omega) (by omega)) c hc
      · simp at hc
        subst hc
        exact char_ofNat_digit_isDigit (Nat.mod_lt _ (by omega))

theorem natDigs_all_digits (n : Nat) : ∀ c ∈ natDigs n, c.isDigit = true := by
  rw [natDigs_eq_R]
  exact natDigsR_all_digits n

theorem parseNatDigits_append_one (xs : Str) (c : Char) :
    parseNatDigits (xs ++ [c]) = parseNatDigits xs * 10 + (c.toNat - 48) := by
  unfold parseNatDigits
  rw [List.foldl_append]
  rfl

theorem parseNatDigits_natDigsR (n : Nat) : parseNatDigits (natDigsR n) = n := by
  induction n using Nat.strong_induction_on with
  | _ n ih =>
    rw [natDigsR]
    split
    · rename_i h
      show parseNatDigits [Char.ofNat (48 + n)] = n
      unfold parseNatDigits
      simp [List.foldl, char_ofNat_digit_toNat h]
    · rename_i h
      rw [parseNatDigits_append_one, ih (n / 10) (Nat.div_lt_self (by omega) (by omega)),
        char_ofNat_digit_toNat (Nat.mod_lt _ (by omega))]
      omega

theorem parseNatDigits_natDigs (n : Nat) : parseNatDigits (natDigs n) = n := by
  rw [natDigs_eq_R]
  exact parseNatDigits_natDigsR n

theorem parseIntGroup_jsIntToString (i : Int) : parseIntGroup (jsIntToString i) = i := by
  unfold jsIntToString
  split
  · rename_i h
    show parseIntGroup ('-' :: natDigs i.natAbs) = i
    unfold parseIntGroup
    simp only [List.head?_cons, List.tail_cons, if_pos, parseNatDigits_natDigs]
    omega
  · rename_i h
    unfold parseIntGroup
    obtain ⟨c, cs, hc⟩ : ∃ c cs, natDigs i.toNat = c :: cs := by
      cases hd : natDigs i.toNat with
      | nil => exact absurd hd (natDigs_ne_nil _)
      | cons c cs => exact ⟨c, cs, rfl⟩
    have hdig : c.isDigit = true := natDigs_all_digits _ c (by rw [hc]; simp)
    have hne : c ≠ '-' := by
      intro hcm
      rw [hcm] at hdig
      simp [Char.isDigit] at hdig
    rw [hc]
    simp [hne]
    rw [← hc, parseNatDigits_natDigs]
    omega

/-! ## The wrapper-date regular expression

The source decodes upstream dates with `raw.match(/\/Date\((-?\d+)\)\//)`
(cd-api.ts, `parseDate`).  The pattern is unanchored, so JS scans for the
leftmost starting position at which the literal prefix `/Date(`, an
optional minus sign, a maximal nonempty digit run, and the literal suffix
`)/` match; `\d+` is greedy, and since no digit can satisfy the following
literal `)`, backtracking never yields a different match.  `matchAt`
decides a match at one position and returns the capture group,
`findDateMatch` scans positions left to right. -/

theorem takeWhile_all {p : Char → Bool} {xs : Str} (h : ∀ c ∈ xs, p c = true) :
    xs.takeWhile p = xs := by
  induction xs with
  | nil => rfl
  | cons c cs ih => simp [List.takeWhile_cons, h c (by simp), ih fun x hx => h x (by simp [hx])]

theorem takeWhile_digits_append {xs rest : Str} (h : ∀ c ∈ xs, c.isDigit = true) :
    (xs ++ ')' :: rest).takeWhile Char.isDigit = xs := by
  rw [List.takeWhile_append, takeWhile_all h]
  simp

theorem drop_len_append {xs rest : Str} : (xs ++ rest).drop xs.length = rest :=
  List.drop_left xs rest

theorem matchAt_group {g : Str} (hne : g ≠ [])
    (hform : (∀ c ∈ g, c.isDigit = true) ∨
      (∃ ds, g = '-' :: ds ∧ ds ≠ [] ∧ ∀ c ∈ ds, c.isDigit = true)) :
    matchAt ('/' :: 'D' :: 'a' :: 't' :: 'e' :: '(' :: (g ++ [')', '/'])) = some g := by
  rcases hform with hall | ⟨ds, hg, hds, hall⟩
  · obtain ⟨c, cs, hc⟩ : ∃ c cs, g = c :: cs := by
      cases g with
      | nil => exact absurd rfl hne
      | cons c cs => exact ⟨c, cs, rfl⟩
    subst hc
    have hdigc : c.isDigit = true := hall c (by simp)
    have hcm : c ≠ '-' := by
      intro h
      rw [h] at hdigc
      simp [Char.isDigit] at hdigc
    show matchAt ('/' :: 'D' :: 'a' :: 't' :: 'e' :: '(' :: ((c :: cs) ++ [')', '/'])) = _
    unfold matchAt
    have h1 : ((c :: cs) ++ [')', '/']).head? = some c := rfl
    have htw : ((c :: cs) ++ [')', '/']).takeWhile Char.isDigit = c :: cs := by
      have : (c :: cs) ++ [')', '/'] = (c :: cs) ++ ')' :: ['/'] := rfl
      rw [this, takeWhile_digits_append hall]
    simp only [List.cons_append] at h1 htw ⊢
    rw [h1]
    simp only [Option.some.injEq]
    rw [if_neg hcm, if_neg hcm, htw]
    rw [if_neg (by simp)]
    have hdrop : (c :: (cs ++ [')', '/'])).drop (c :: cs).length = [')', '/'] := by
      have h2 : c :: (cs ++ [')', '/']) = (c :: cs) ++ [')', '/'] := by simp
      rw [h2, drop_len_append]
    rw [hdrop]
    rfl
  · subst hg
    show matchAt ('/' :: 'D' :: 'a' :: 't' :: 'e' :: '(' :: (('-' :: ds) ++ [')', '/'])) = _
    unfold matchAt
    have htw : (ds ++ [')', '/']).takeWhile Char.isDigit = ds := by
      have : ds ++ [')', '/'] = ds ++ ')' :: ['/'] := rfl
      rw [this, takeWhile_digits_append hall]
    simp only [List.cons_append, List.head?_cons, Option.some.injEq, List.tail_cons,
      if_true, htw]
    rw [if_neg hds, drop_len_append]
    rfl

theorem jsIntToString_form (ms : Int) :
    jsIntToString ms ≠ [] ∧
      ((∀ c ∈ jsIntToString ms, c.isDigit = true) ∨
        (∃ ds, jsIntToString ms = '-' :: ds ∧ ds ≠ [] ∧ ∀ c ∈ ds, c.isDigit = true)) := by
  unfold jsIntToString
  split
  · exact ⟨by simp, Or.inr ⟨natDigs ms.natAbs, rfl, natDigs_ne_nil _, natDigs_all_digits _⟩⟩
  · exact ⟨natDigs_ne_nil _, Or.inl (natDigs_all_digits _)⟩

theorem matchAt_encode (ms : Int) : matchAt (dtDateTimeEncode ms) = some (jsIntToString ms) := by
  obtain ⟨h1, h2⟩ := jsIntToString_form ms
  exact matchAt_group h1 h2

theorem findDateMatch_encode (ms : Int) :
    findDateMatch (dtDateTimeEncode ms) = some (jsIntToString ms) := by
  unfold dtDateTimeEncode
  rw [findDateMatch]
  have := matchAt_encode ms
  unfold dtDateTimeEncode at this
  rw [this]

/-! ## Proleptic Gregorian calendar

The source converts epoch milliseconds to text with the JS builtin
`new Date(ms).toISOString()` and back with `new Date(isoString).getTime()`.
Both builtins are specified by ECMA-262 in terms of the proleptic
Gregorian calendar in UTC.  We embed them with a March-based year
decomposition: days since the epoch are split into 400-year eras of
exactly 146097 days, then a year of era and a day of year are found by
cumulative search over year lengths (ECMA-262 defines YearFromTime as
exactly such a search), then a month and day by cumulative search over
March-first month lengths. -/

theorem partSum_succ_back (len : Nat → Nat) (i k : Nat) :
    partSum len i (k + 1) = partSum len i k + len (i + k) := by
  induction k generalizing i with
  | zero => simp [partSum]
  | succ k ih =>
    rw [partSum, ih (i + 1), partSum]
    rw [show i + 1 + k = i + (k + 1) by omega]
    omega

theorem cumStart_eq_partSum (len : Nat → Nat) (k : Nat) :
    cumStart len k = partSum len 0 k := by
  induction k with
  | zero => rfl
  | succ k ih => rw [cumStart, ih, partSum_succ_back]; simp

theorem cumFind_go (len : Nat → Nat) (k : Nat) :
    ∀ (fuel i r : Nat), k ≤ fuel → r < len (i + k) →
      cumFind len fuel i (partSum len i k + r) = (i + k, r) := by
  induction k with
  | zero =>
    intro fuel i r _ hr
    simp only [Nat.add_zero] at hr
    cases fuel with
    | zero => simp [cumFind, partSum]
    | succ f =>
      show (if partSum len i 0 + r < len i then _ else _) = _
      rw [partSum]
      simp [hr]
  | succ k ih =>
    intro fuel i r hk hr
    cases fuel with
    | zero => omega
    | succ f =>
      rw [partSum]
      show (if len i + partSum len (i + 1) k + r < len i then _ else _) = _
      rw [if_neg (by omega)]
      have h2 : len i + partSum len (i + 1) k + r - len i = partSum len (i + 1) k + r := by omega
      rw [h2, ih f (i + 1) r (by omega) (by rw [show i + 1 + k = i + (k + 1) by omega]; exact hr)]
      rw [show i + 1 + k = i + (k + 1) by omega]

theorem cumFind_complete (len : Nat → Nat) :
    ∀ (fuel i d : Nat), d < partSum len i fuel →
      ∃ k r, k < fuel ∧ r < len (i + k) ∧ d = partSum len i k + r ∧
        cumFind len fuel i d = (i + k, r) := by
  intro fuel
  induction fuel with
  | zero =>
    intro i d hd
    rw [partSum] at hd
    omega
  | succ f ih =>
    intro i d hd
    rw [partSum] at hd
    by_cases h : d < len i
    · refine ⟨0, d, by omega, by simpa using h, by rw [partSum]; omega, ?_⟩
      show (if d < len i then _ else _) = _
      simp [h]
    · obtain ⟨k, r, hk, hr, hsum, hcf⟩ := ih (i + 1) (d - len i) (by omega)
      refine ⟨k + 1, r, by omega, ?_, ?_, ?_⟩
      · rw [show i + (k + 1) = i + 1 + k by omega]; exact hr
      · rw [partSum]; omega
      · show (if d < len i then _ else _) = _
        rw [if_neg h, hcf]
        rw [show i + 1 + k = i + (k + 1) by omega]

set_option maxRecDepth 100000 in
theorem era_total : partSum marchYearLen 0 400 = 146097 := by decide

theorem month_total (b : Bool) : partSum (marchMonthLen b) 0 12 = if b then 366 else 365 := by
  cases b <;> decide

/-- Structure of `civilFromDays`: the returned date decomposes into an era,
a March-based year of era, month and day offsets, with the stated bounds,
and reassembling them recovers the day number. -/
theorem civilFromDays_parts (z : Int) :
    ∃ (era : Int) (yoe mp dm1 : Nat),
      civilFromDays z =
        (era * 400 + (yoe : Int) + (if (if mp < 10 then mp + 3 else mp - 9) ≤ 2 then 1 else 0),
          (if mp < 10 then mp + 3 else mp - 9), dm1 + 1) ∧
      era = (z + 719468) / 146097 ∧
      yoe < 400 ∧ mp < 12 ∧ dm1 < marchMonthLen (marchLeap yoe) mp ∧
      era * 146097 +
          ((cumStart marchYearLen yoe + (cumStart (marchMonthLen (marchLeap yoe)) mp + dm1) : Nat) : Int)
          - 719468 = z := by
  have h146 : ((146097 : Int)) ≠ 0 := by decide
  set zz : Int := z + 719468 with hzz
  set era : Int := zz / 146097 with hera
  have hmod : zz - era * 146097 = zz % 146097 := by
    rw [Int.emod_def]
    ring
  have hdoe_nonneg : 0 ≤ zz - era * 146097 := by
    rw [hmod]
    exact Int.emod_nonneg zz h146
  have hdoe_lt : zz - era * 146097 < 146097 := by
    rw [hmod]
    exact Int.emod_lt_of_pos zz (by decide)
  set doe : Nat := (zz - era * 146097).toNat with hdoe
  have hdoe_int : (doe : Int) = zz - era * 146097 := Int.toNat_of_nonneg hdoe_nonneg
  have hdoeN : doe < 146097 := by omega
  obtain ⟨yoe, doy, hyoe_lt, hdoy_lt, hdoy_sum, hcf1⟩ :=
    cumFind_complete marchYearLen 400 0 doe (by rw [era_total]; omega)
  simp only [Nat.zero_add] at hdoy_lt hcf1
  have hdoy_lt' : doy < partSum (marchMonthLen (marchLeap yoe)) 0 12 := by
    rw [month_total]
    have : marchYearLen yoe = if marchLeap yoe then 366 else 365 := rfl
    omega
  obtain ⟨mp, dm1, hmp_lt, hdm1_lt, hdm1_sum, hcf2⟩ :=
    cumFind_complete (marchMonthLen (marchLeap yoe)) 12 0 doy hdoy_lt'
  simp only [Nat.zero_add] at hdm1_lt hcf2
  refine ⟨era, yoe, mp, dm1, ?_, rfl, hyoe_lt, hmp_lt, hdm1_lt, ?_⟩
  · show civilFromDays z = _
    simp only [civilFromDays, ← hzz, ← hera, ← hdoe, hcf1, hcf2]
  · rw [cumStart_eq_partSum, cumStart_eq_partSum]
    omega

theorem daysFromCivil_build (era : Int) (yoe mp dm1 : Nat) (hyoe : yoe < 400) (hmp : mp < 12) :
    daysFromCivil
        (era * 400 + (yoe : Int) + (if (if mp < 10 then mp + 3 else mp - 9) ≤ 2 then 1 else 0))
        (if mp < 10 then mp + 3 else mp - 9) (dm1 + 1) =
      era * 146097 +
        ((cumStart marchYearLen yoe + (cumStart (marchMonthLen (marchLeap yoe)) mp + dm1) : Nat) : Int)
        - 719468 := by
  have hdiv : ∀ w : Int, w = era * 400 + (yoe : Int) → w / 400 = era := by
    intro w hw
    subst hw
    rw [show era * 400 + (yoe : Int) = (yoe : Int) + era * 400 by ring]
    rw [Int.add_mul_ediv_right _ _ (by decide : (400 : Int) ≠ 0)]
    rw [Int.ediv_eq_zero_of_lt (by omega) (by omega)]
    ring
  by_cases h10 : mp < 10
  · simp only [daysFromCivil, if_pos h10, if_neg (show ¬(mp + 3 ≤ 2) by omega),
      if_pos (show 3 ≤ mp + 3 by omega)]
    rw [show era * 400 + (yoe : Int) + 0 - 0 = era * 400 + (yoe : Int) by ring]
    rw [hdiv _ rfl]
    rw [show era * 400 + (yoe : Int) - era * 400 = (yoe : Int) by ring, Int.toNat_natCast]
    rw [show mp + 3 - 3 = mp by omega, show dm1 + 1 - 1 = dm1 by omega]
  · simp only [daysFromCivil, if_neg h10, if_pos (show mp - 9 ≤ 2 by omega),
      if_neg (show ¬(3 ≤ mp - 9) by omega)]
    rw [show era * 400 + (yoe : Int) + 1 - 1 = era * 400 + (yoe : Int) by ring]
    rw [hdiv _ rfl]
    rw [show era * 400 + (yoe : Int) - era * 400 = (yoe : Int) by ring, Int.toNat_natCast]
    rw [show mp - 9 + 9 = mp by omega, show dm1 + 1 - 1 = dm1 by omega]

/-- Applying `civilFromDays` and then `daysFromCivil` is the identity. -/
theorem daysFromCivil_civilFromDays (z : Int) :
    daysFromCivil (civilFromDays z).1 (civilFromDays z).2.1 (civilFromDays z).2.2 = z := by
  obtain ⟨era, yoe, mp, dm1, heq, _, hyoe_lt, hmp_lt, _, hre⟩ := civilFromDays_parts z
  rw [heq]
  show daysFromCivil _ _ _ = z
  rw [daysFromCivil_build era yoe mp dm1 hyoe_lt hmp_lt]
  exact hre

/-! ## The JS Date builtins

`toISOString` renders an in-range time value in the ECMA-262 Date Time
String Format, `YYYY-MM-DDTHH:mm:ss.sssZ`, with the year expanded to a
signed six-digit form when it lies outside 0..9999.  `jsDateParse` models
`Date.parse`/`new Date(string)` on that format (the only format whose
acceptance ECMA-262 mandates); strings in any other format fall back to
implementation-defined heuristics and are modelled as unparseable, which
is sound for every verified path because those paths only parse strings
previously produced by `toISOString`. -/

theorem parseNat_foldl_acc (ds : Str) :
    ∀ acc : Nat, ds.foldl (fun a c => a * 10 + (c.toNat - 48)) acc =
      acc * 10 ^ ds.length + parseNatDigits ds := by
  induction ds with
  | nil => intro acc; simp [parseNatDigits]
  | cons c cs ih =>
    intro acc
    have hcons : parseNatDigits (c :: cs) =
        (c.toNat - 48) * 10 ^ cs.length + parseNatDigits cs := by
      show List.foldl _ (0 * 10 + (c.toNat - 48)) cs = _
      rw [ih]
      ring_nf
    show List.foldl _ (acc * 10 + (c.toNat - 48)) cs = _
    rw [ih, hcons, List.length_cons, pow_succ]
    ring

theorem readDigits_exact (ds : Str) (hd : ∀ c ∈ ds, c.isDigit = true) :
    ∀ (acc : Nat) (rest : Str),
      readDigits ds.length acc (ds ++ rest) =
        some (acc * 10 ^ ds.length + parseNatDigits ds, rest) := by
  induction ds with
  | nil => intro acc rest; simp [readDigits, parseNatDigits]
  | cons c cs ih =>
    intro acc rest
    show (if c.isDigit then readDigits cs.length (acc * 10 + (c.toNat - 48)) (cs ++ rest)
        else none) = _
    rw [if_pos (hd c (by simp)), ih (fun x hx => hd x (by simp [hx]))]
    have hcons : parseNatDigits (c :: cs) =
        (c.toNat - 48) * 10 ^ cs.length + parseNatDigits cs := by
      show List.foldl _ (0 * 10 + (c.toNat - 48)) cs = _
      rw [parseNat_foldl_acc]
      ring_nf
    rw [hcons]
    have : (acc * 10 + (c.toNat - 48)) * 10 ^ cs.length + parseNatDigits cs =
        acc * 10 ^ (c :: cs).length + ((c.toNat - 48) * 10 ^ cs.length + parseNatDigits cs) := by
      show _ = acc * 10 ^ (cs.length + 1) + _
      rw [pow_succ]
      ring
    rw [this]

theorem natDigsR_len (k : Nat) :
    ∀ n : Nat, 1 ≤ k → n < 10 ^ k → (natDigsR n).length ≤ k := by
  induction k with
  | zero => omega
  | succ k ih =>
    intro n _ hn
    rw [natDigsR]
    split
    · simp
    · rename_i h10
      have hk1 : 1 ≤ k := by
        rcases Nat.eq_zero_or_pos k with hk0 | hk1
        · subst hk0; simp at hn; omega
        · exact hk1
      have hdiv : n / 10 < 10 ^ k := by
        rw [Nat.div_lt_iff_lt_mul (by omega)]
        calc n < 10 ^ (k + 1) := hn
        _ = 10 ^ k * 10 := by rw [pow_succ]
      have := ih (n / 10) hk1 hdiv
      simp only [List.length_append, List.length_cons, List.length_nil]
      omega

theorem natDigs_len (k : Nat) :
    ∀ n : Nat, 1 ≤ k → n < 10 ^ k → (natDigs n).length ≤ k := by
  intro n hk hn
  rw [natDigs_eq_R]
  exact natDigsR_len k n hk hn

theorem pad_length (k n : Nat) (hk : 1 ≤ k) (hn : n < 10 ^ k) : (pad k n).length = k := by
  unfold pad
  rw [List.length_append, List.length_replicate]
  have := natDigs_len k n hk hn
  omega

theorem pad_all_digits (k n : Nat) : ∀ c ∈ pad k n, c.isDigit = true := by
  intro c hc
  rw [pad, List.mem_append] at hc
  rcases hc with hc | hc
  · rw [List.mem_replicate] at hc
    rw [hc.2]
    decide
  · exact natDigs_all_digits n c hc

theorem parseNat_replicate_zeros (k : Nat) (ds : Str) :
    parseNatDigits (List.replicate k '0' ++ ds) = parseNatDigits ds := by
  induction k with
  | zero => simp
  | succ k ih =>
    rw [List.replicate_succ]
    show List.foldl _ (0 * 10 + ('0'.toNat - 48)) _ = _
    have : 0 * 10 + ('0'.toNat - 48) = 0 := by decide
    rw [this]
    exact ih

theorem parseNat_pad (k n : Nat) : parseNatDigits (pad k n) = n := by
  rw [pad, parseNat_replicate_zeros, parseNatDigits_natDigs]

theorem readDigits_pad (k n : Nat) (rest : Str) (hk : 1 ≤ k) (hn : n < 10 ^ k) :
    readDigits k 0 (pad k n ++ rest) = some (n, rest) := by
  have h := readDigits_exact (pad k n) (pad_all_digits k n) 0 rest
  rw [pad_length k n hk hn] at h
  rw [h, parseNat_pad]
  simp

theorem expectC_cons (c : Char) (r : Str) : expectC c (c :: r) = some r := by
  simp [expectC]

theorem daysInCalMonth_le (y : Int) (mo : Nat) : daysInCalMonth y mo ≤ 31 := by
  unfold daysInCalMonth
  split <;> first | omega | (split <;> omega)

theorem finishParse_build (y : Int) (mo d hh mi ss mss : Nat)
    (hmo1 : 1 ≤ mo) (hmo2 : mo ≤ 12) (hd1 : 1 ≤ d) (hd2 : d ≤ daysInCalMonth y mo)
    (hhh : hh ≤ 23) (hmi : mi ≤ 59) (hss : ss ≤ 59) (hmss : mss ≤ 999)
    (hlo : dateMin ≤ daysFromCivil y mo d * 86400000 +
      ((hh * 3600000 + mi * 60000 + ss * 1000 + mss : Nat) : Int))
    (hhi : daysFromCivil y mo d * 86400000 +
      ((hh * 3600000 + mi * 60000 + ss * 1000 + mss : Nat) : Int) ≤ dateMax) :
    finishParse y
        ('-' :: (pad 2 mo ++ '-' :: (pad 2 d ++ 'T' :: (pad 2 hh ++ ':' ::
          (pad 2 mi ++ ':' :: (pad 2 ss ++ '.' :: (pad 3 mss ++ ['Z'])))))))
      = some (daysFromCivil y mo d * 86400000 +
          ((hh * 3600000 + mi * 60000 + ss * 1000 + mss : Nat) : Int)) := by
  have h100 : (100 : Nat) = 10 ^ 2 := by norm_num
  have h1000 : (1000 : Nat) = 10 ^ 3 := by norm_num
  have hp2 : ∀ (n : Nat), n < 100 → ∀ rest : Str,
      readDigits 2 0 (pad 2 n ++ rest) = some (n, rest) := by
    intro n hn rest
    exact readDigits_pad 2 n rest (by omega) (by omega)
  have hp3 : ∀ (n : Nat), n < 1000 → ∀ rest : Str,
      readDigits 3 0 (pad 3 n ++ rest) = some (n, rest) := by
    intro n hn rest
    exact readDigits_pad 3 n rest (by omega) (by omega)
  have hd100 : d < 100 := by
    have := daysInCalMonth_le y mo
    omega
  unfold finishParse
  rw [expectC_cons]
  simp only [Option.bind_eq_bind, Option.some_bind]
  rw [hp2 mo (by omega)]
  simp only [Option.some_bind]
  rw [expectC_cons]
  simp only [Option.some_bind]
  rw [hp2 d hd100]
  simp only [Option.some_bind]
  rw [expectC_cons]
  simp only [Option.some_bind]
  rw [hp2 hh (by omega)]
  simp only [Option.some_bind]
  rw [expectC_cons]
  simp only [Option.some_bind]
  rw [hp2 mi (by omega)]
  simp only [Option.some_bind]
  rw [expectC_cons]
  simp only [Option.some_bind]
  rw [hp2 ss (by omega)]
  simp only [Option.some_bind]
  rw [expectC_cons]
  simp only [Option.some_bind]
  rw [hp3 mss (by omega)]
  simp only [Option.some_bind]
  rw [expectC_cons]
  simp only [Option.some_bind]
  show validParts y mo d hh mi ss mss = _
  unfold validParts
  rw [if_pos ⟨hmo1, hmo2, hd1, hd2, Or.inl hhh, hmi, hss⟩]
  rw [if_pos ⟨hlo, hhi⟩]

theorem marchLeap_isLeapCal (era : Int) (yoe : Nat) (h : yoe < 400) :
    isLeapCal (era * 400 + (yoe : Int) + 1) = marchLeap yoe := by
  have h4 : (era * 400 + (yoe : Int) + 1) % 4 = ((yoe : Int) + 1) % 4 := by
    rw [show era * 400 + (yoe : Int) + 1 = ((yoe : Int) + 1) + (era * 100) * 4 by ring,
      Int.add_mul_emod_self]
  have h100 : (era * 400 + (yoe : Int) + 1) % 100 = ((yoe : Int) + 1) % 100 := by
    rw [show era * 400 + (yoe : Int) + 1 = ((yoe : Int) + 1) + (era * 4) * 100 by ring,
      Int.add_mul_emod_self]
  have h400 : (era * 400 + (yoe : Int) + 1) % 400 = ((yoe : Int) + 1) % 400 := by
    rw [show era * 400 + (yoe : Int) + 1 = ((yoe : Int) + 1) + era * 400 by ring,
      Int.add_mul_emod_self]
  rw [Bool.eq_iff_iff]
  simp only [isLeapCal, marchLeap, Bool.or_eq_true, Bool.and_eq_true, beq_iff_eq, bne_iff_ne,
    ne_eq, h4, h100, h400]
  omega

theorem marchMonth_daysInCalMonth (era : Int) (yoe mp : Nat) (hyoe : yoe < 400) (hmp : mp < 12) :
    marchMonthLen (marchLeap yoe) mp =
      daysInCalMonth
        (era * 400 + (yoe : Int) + (if (if mp < 10 then mp + 3 else mp - 9) ≤ 2 then 1 else 0))
        (if mp < 10 then mp + 3 else mp - 9) := by
  interval_cases mp
  · rfl
  · rfl
  · rfl
  · rfl
  · rfl
  · rfl
  · rfl
  · rfl
  · rfl
  · rfl
  · rfl
  · show (if marchLeap yoe then 29 else 28) =
      daysInCalMonth (era * 400 + (yoe : Int) + 1) 2
    show _ = (if isLeapCal (era * 400 + (yoe : Int) + 1) then 29 else 28)
    rw [marchLeap_isLeapCal era yoe hyoe]

/-- Parsing the ISO rendering of an in-range time value recovers the value:
the composition of the two JS Date builtins is the identity on
representable instants. -/
theorem jsDateParse_toISOString (ms : Int) (h1 : dateMin ≤ ms) (h2 : ms ≤ dateMax) :
    jsDateParse (toISOString ms) = some ms := by
  have hpow4 : (10 : Nat) ^ 4 = 10000 := by norm_num
  have hpow6 : (10 : Nat) ^ 6 = 1000000 := by norm_num
  rw [dateMin] at h1
  rw [dateMax] at h2
  set z : Int := ms / 86400000 with hz
  have hzlo : -100000000 ≤ z := by omega
  have hzhi : z ≤ 100000000 := by omega
  have htod0 : 0 ≤ ms - z * 86400000 := by omega
  set tod : Nat := (ms - z * 86400000).toNat with htod
  have htod_int : (tod : Int) = ms - z * 86400000 := Int.toNat_of_nonneg htod0
  have htod_lt : tod < 86400000 := by omega
  obtain ⟨era, yoe, mp, dm1, heq, heraEq, hyoe, hmp, hdm1, hre⟩ := civilFromDays_parts z
  set m : Nat := if mp < 10 then mp + 3 else mp - 9 with hm
  set d : Nat := dm1 + 1 with hd
  set y : Int := era * 400 + (yoe : Int) + (if m ≤ 2 then 1 else 0) with hy
  have hera_lo : -680 ≤ era := by
    rw [heraEq]
    calc (-680 : Int) = (-100000000 + 719468) / 146097 := by decide
    _ ≤ (z + 719468) / 146097 := Int.ediv_le_ediv (by decide) (by omega)
  have hera_hi : era ≤ 689 := by
    rw [heraEq]
    calc (z + 719468) / 146097 ≤ (100000000 + 719468) / 146097 :=
      Int.ediv_le_ediv (by decide) (by omega)
    _ = 689 := by decide
  have hylo : -272000 ≤ y := by
    rw [hy]
    have : (0 : Int) ≤ (yoe : Int) := by omega
    split <;> omega
  have hyhi : y ≤ 276000 := by
    rw [hy]
    have : (yoe : Int) ≤ 399 := by omega
    split <;> omega
  have hm1 : 1 ≤ m := by rw [hm]; split <;> omega
  have hm12 : m ≤ 12 := by rw [hm]; split <;> omega
  have hyd : daysFromCivil y m d = z := by
    have h3 := daysFromCivil_civilFromDays z
    rw [heq] at h3
    exact h3
  have hdcal : d ≤ daysInCalMonth y m := by
    have hmon := marchMonth_daysInCalMonth era yoe mp hyoe hmp
    rw [← hm, ← hy] at hmon
    omega
  have hh23 : tod / 3600000 ≤ 23 := by omega
  have hmi59 : tod % 3600000 / 60000 ≤ 59 := by omega
  have hss59 : tod % 60000 / 1000 ≤ 59 := by omega
  have hmss999 : tod % 1000 ≤ 999 := by omega
  have hms_val : daysFromCivil y m d * 86400000 +
      ((tod / 3600000 * 3600000 + tod % 3600000 / 60000 * 60000 +
        tod % 60000 / 1000 * 1000 + tod % 1000 : Nat) : Int) = ms := by
    rw [hyd]
    have hsplit : (tod / 3600000 * 3600000 + tod % 3600000 / 60000 * 60000 +
        tod % 60000 / 1000 * 1000 + tod % 1000 : Nat) = tod := by omega
    rw [hsplit]
    omega
  have hlo' : dateMin ≤ daysFromCivil y m d * 86400000 +
      ((tod / 3600000 * 3600000 + tod % 3600000 / 60000 * 60000 +
        tod % 60000 / 1000 * 1000 + tod % 1000 : Nat) : Int) := by
    rw [hms_val, dateMin]; omega
  have hhi' : daysFromCivil y m d * 86400000 +
      ((tod / 3600000 * 3600000 + tod % 3600000 / 60000 * 60000 +
        tod % 60000 / 1000 * 1000 + tod % 1000 : Nat) : Int) ≤ dateMax := by
    rw [hms_val, dateMax]; omega
  have hbuild := finishParse_build y m d (tod / 3600000) (tod % 3600000 / 60000)
    (tod % 60000 / 1000) (tod % 1000) hm1 hm12 (by omega) hdcal hh23 hmi59 hss59 hmss999 hlo' hhi'
  rw [hms_val] at hbuild
  have hiso : toISOString ms =
      (if 0 ≤ y ∧ y ≤ 9999 then pad 4 y.toNat else (if y < 0 then ['-'] else ['+']) ++ pad 6 y.natAbs) ++
        ('-' :: (pad 2 m ++ '-' :: (pad 2 d ++ 'T' :: (pad 2 (tod / 3600000) ++ ':' ::
          (pad 2 (tod % 3600000 / 60000) ++ ':' :: (pad 2 (tod % 60000 / 1000) ++ '.' ::
            (pad 3 (tod % 1000) ++ ['Z']))))))) := by
    simp only [toISOString, ← hz, ← htod, heq, List.append_assoc, List.cons_append]
  rw [hiso]
  by_cases hyr : 0 ≤ y ∧ y ≤ 9999
  · rw [if_pos hyr]
    have hylt : y.toNat < 10 ^ 4 := by omega
    have hlen : (pad 4 y.toNat).length = 4 := pad_length 4 y.toNat (by omega) hylt
    obtain ⟨c, cs, hcons⟩ : ∃ c cs, pad 4 y.toNat = c :: cs := by
      cases hp : pad 4 y.toNat with
      | nil => rw [hp] at hlen; simp at hlen
      | cons c cs => exact ⟨c, cs, rfl⟩
    have hdig : c.isDigit = true := pad_all_digits 4 y.toNat c (by rw [hcons]; simp)
    have hcp : c ≠ '+' := by intro hx; rw [hx] at hdig; simp [Char.isDigit] at hdig
    have hcm : c ≠ '-' := by intro hx; rw [hx] at hdig; simp [Char.isDigit] at hdig
    rw [hcons]
    show jsDateParse (c :: (cs ++ _)) = some ms
    rw [jsDateParse]
    rw [if_neg hcp, if_neg hcm]
    have hre2 : (c :: (cs ++ ('-' :: (pad 2 m ++ '-' :: (pad 2 d ++ 'T' ::
        (pad 2 (tod / 3600000) ++ ':' :: (pad 2 (tod % 3600000 / 60000) ++ ':' ::
          (pad 2 (tod % 60000 / 1000) ++ '.' :: (pad 3 (tod % 1000) ++ ['Z']))))))))) =
        pad 4 y.toNat ++ ('-' :: (pad 2 m ++ '-' :: (pad 2 d ++ 'T' ::
        (pad 2 (tod / 3600000) ++ ':' :: (pad 2 (tod % 3600000 / 60000) ++ ':' ::
          (pad 2 (tod % 60000 / 1000) ++ '.' :: (pad 3 (tod % 1000) ++ ['Z']))))))) := by
      rw [hcons]
      simp
    rw [hre2, readDigits_pad 4 y.toNat _ (by omega) hylt]
    simp only [Option.some_bind]
    rw [show ((y.toNat : Nat) : Int) = y by omega]
    exact hbuild
  · rw [if_neg hyr]
    have hyabs : y.natAbs < 10 ^ 6 := by omega
    by_cases hneg : y < 0
    · rw [if_pos hneg]
      show jsDateParse ('-' :: (pad 6 y.natAbs ++ _)) = some ms
      rw [jsDateParse]
      rw [if_neg (by decide), if_pos rfl]
      rw [readDigits_pad 6 y.natAbs _ (by omega) hyabs]
      simp only [Option.some_bind]
      rw [if_neg (by omega)]
      rw [show -((y.natAbs : Nat) : Int) = y by omega]
      exact hbuild
    · rw [if_neg hneg]
      show jsDateParse ('+' :: (pad 6 y.natAbs ++ _)) = some ms
      rw [jsDateParse]
      rw [if_pos rfl]
      rw [readDigits_pad 6 y.natAbs _ (by omega) hyabs]
      simp only [Option.some_bind]
      rw [show ((y.natAbs : Nat) : Int) = y by omega]
      exact hbuild

/-! ## Errors and the decoder `parseDate`

JS exceptions are modelled by `Except JsErr`.  `JsErr.err msg` is a thrown
`new Error(msg)`; `JsErr.rangeErr` is the `RangeError` that
`Date.prototype.toISOString` throws on an invalid `Date`.

On the decoder's arithmetic: the source computes
`parseInt(match[1], 10)`, producing a binary double.  We model the value
as an exact integer.  This is faithful for the valid/invalid split and for
every in-range result: values up to 2^53 parse exactly (and every
time value inside the representable range ±8.64e15 is below 2^53), and
rounding of larger values can never bring them back inside the range, so
both models throw on exactly the same inputs and agree on all others. -/

theorem okBind {α β : Type} (a : α) (g : α → Except JsErr β) :
    ((Except.ok a : Except JsErr α) >>= g) = g a := rfl

theorem pureOk {α : Type} (a : α) : (pure a : Except JsErr α) = .ok a := rfl

theorem mapM_ok_of_forall_ok {α β : Type} (g : α → Except JsErr β) (f : α → β) :
    ∀ xs : List α, (∀ x ∈ xs, g x = .ok (f x)) → xs.mapM g = .ok (xs.map f) := by
  intro xs
  induction xs with
  | nil => intro _; rfl
  | cons x xs ih =>
    intro h
    rw [List.mapM_cons, h x (by simp), okBind, ih fun x hx => h x (by simp [hx]), okBind, pureOk,
      List.map_cons]

theorem parseDate_of_dtMs (s : Str) (v : Int) (h : dtMs s = some v) :
    parseDate s = .ok (toISOString v) := by
  unfold dtMs at h
  unfold parseDate
  cases hf : findDateMatch s with
  | none => rw [hf] at h; simp at h
  | some g =>
    rw [hf] at h
    simp only at h
    split at h
    · rename_i hr
      show (if dateMin ≤ parseIntGroup g ∧ parseIntGroup g ≤ dateMax then
          Except.ok (toISOString (parseIntGroup g)) else Except.error JsErr.rangeErr) = _
      rw [if_pos hr]
      simp at h
      rw [h]
    · simp at h

theorem dtMs_range (s : Str) (v : Int) (h : dtMs s = some v) :
    dateMin ≤ v ∧ v ≤ dateMax := by
  unfold dtMs at h
  cases hf : findDateMatch s with
  | none => rw [hf] at h; simp at h
  | some g =>
    rw [hf] at h
    simp only at h
    split at h
    · rename_i hr
      simp at h
      omega
    · simp at h

theorem toISOString_ne_nil (ms : Int) : toISOString ms ≠ [] := by
  intro h
  simp only [toISOString] at h
  rw [List.append_eq_nil] at h
  exact absurd h.2 (by simp)

theorem legDatesOk_split (leg : RawLeg) (h : legDatesOk leg = true) :
    exceptOk (parseDate leg.dtDateTime1) = true ∧ exceptOk (parseDate leg.dtDateTime2) = true := by
  unfold legDatesOk at h
  rw [Bool.and_eq_true] at h
  exact h

theorem exceptOk_eq_ok {α : Type} (e : Except JsErr α) (h : exceptOk e = true) :
    ∃ a, e = .ok a := by
  cases e with
  | ok a => exact ⟨a, rfl⟩
  | error _ => simp [exceptOk] at h

theorem buildLeg_ok (leg : RawLeg) (h : legDatesOk leg = true) :
    buildLeg leg = .ok (legOfOk leg) := by
  obtain ⟨h1, h2⟩ := legDatesOk_split leg h
  obtain ⟨dep, hdep⟩ := exceptOk_eq_ok _ h1
  obtain ⟨arr, harr⟩ := exceptOk_eq_ok _ h2
  unfold buildLeg legOfOk
  rw [hdep, harr]
  rfl

theorem enumFrom_mem {α : Type} :
    ∀ (xs : List α) (n : Nat) (p : Nat × α), p ∈ xs.enumFrom n → p.2 ∈ xs := by
  intro xs
  induction xs with
  | nil => intro n p h; simp [List.enumFrom] at h
  | cons x xs ih =>
    intro n p h
    rw [List.enumFrom, List.mem_cons] at h
    rcases h with h | h
    · rw [h]; simp
    · exact List.mem_cons_of_mem _ (ih (n + 1) p h)

theorem enum_mem {α : Type} (xs : List α) (p : Nat × α) (h : p ∈ xs.enum) : p.2 ∈ xs :=
  enumFrom_mem xs 0 p h

theorem buildConnection_ok (departure : Str) (prices : List ℚ) (idx : Nat)
    (conn : RawConnection) (h : ∀ leg ∈ conn.aoTrains, legDatesOk leg = true) :
    buildConnection departure prices idx conn = .ok (connOfOk departure prices idx conn) := by
  unfold buildConnection
  rw [mapM_ok_of_forall_ok buildLeg legOfOk conn.aoTrains fun leg hl => buildLeg_ok leg (h leg hl)]
  rfl

/-- Verification of the integral form of `Math.round(n / den)`. -/
theorem mathRound_div_eq (n den : Int) (h : 0 < den) :
    jsRoundDiv n den = ⌊((n : ℚ) / (den : ℚ) + 1 / 2)⌋ := by
  have htn : (((2 * den).toNat : ℕ) : ℤ) = 2 * den := Int.toNat_of_nonneg (by omega)
  have hpos : (0 : ℚ) < ((den : ℚ)) := by
    have : (0 : Int) < den := h
    exact_mod_cast this
  have hq : ((n : ℚ) / (den : ℚ) + 1 / 2) =
      (((2 * n + den : Int) : ℚ) / (((2 * den).toNat : ℕ) : ℚ)) := by
    have hc : ((((2 * den).toNat : ℕ) : ℚ)) = ((2 * den : Int) : ℚ) := by
      exact_mod_cast congrArg (fun z : ℤ => (z : ℚ)) htn
    rw [hc]
    push_cast
    field_simp
    ring
  rw [hq, Rat.floor_intCast_div_natCast, htn]
  rfl

theorem jsRoundDiv_nonneg (n den : Int) (hn : 0 ≤ n) (hden : 0 < den) :
    0 ≤ jsRoundDiv n den :=
  Int.ediv_nonneg (by omega) (by omega)

/-- Success path of `searchConnections`: when both stations resolve, the
session opens, the search succeeds with a connection list present, and
every leg timestamp decodes without throwing, the result is one domain
connection per raw connection (built by `connOfOk` against the computed
price list), the handle string, and the full five-call trace. -/
theorem searchConnections_success (fromQ toQ dep : Str) (p : Nat) (u : Upstream)
    (res : ConnectionInfoR) (raws : List RawConnection)
    (hfrom : exceptOk (searchStationR fromQ u.fromResp) = true)
    (hto : exceptOk (searchStationR toQ u.toResp) = true)
    (hsess : exceptOk u.sessionResp = true)
    (hsearch : u.searchResp = .ok res)
    (hconn : res.oConnInfo.bind OConnInfoR.aoConnections = some raws)
    (hlegs : ∀ conn ∈ raws, ∀ leg ∈ conn.aoTrains, legDatesOk leg = true) :
    searchConnections fromQ toQ dep p u =
      (.ok ⟨some (jsIntToString res.iHandle),
        raws.enum.map fun q => connOfOk dep (priceList raws u.priceResp) q.1 q.2⟩,
       [CallTag.station fromQ, CallTag.station toQ, CallTag.createSession,
        CallTag.searchConn, CallTag.getPrice]) := by
  obtain ⟨fs, hfs⟩ := exceptOk_eq_ok _ hfrom
  obtain ⟨ts, hts⟩ := exceptOk_eq_ok _ hto
  obtain ⟨sid, hsid⟩ := exceptOk_eq_ok _ hsess
  have hmapM : raws.enum.mapM
      (fun q => buildConnection dep (priceList raws u.priceResp) q.1 q.2) =
      .ok (raws.enum.map fun q => connOfOk dep (priceList raws u.priceResp) q.1 q.2) := by
    apply mapM_ok_of_forall_ok
    intro q hq
    exact buildConnection_ok _ _ _ _ (hlegs q.2 (enum_mem raws q hq))
  simp only [searchConnections, hfs, hts, hsid, hsearch, hconn, hmapM]
  rfl

/-- C1: Date/Time Codec round-trip — for every instant representable in
whole milliseconds, decoding the wrapper string `/Date(<ms>)/` produced by
the encoder yields the ISO-8601 rendering of exactly that millisecond
value (negative values included): `parseDate` returns
`toISOString ms` and the extracted embedded value is `ms` itself. -/
theorem c1_date_codec_roundtrip (ms : Int) (hlo : dateMin ≤ ms) (hhi : ms ≤ dateMax) :
    parseDate (dtDateTimeEncode ms) = .ok (toISOString ms) ∧
      dtMs (dtDateTimeEncode ms) = some ms := by
  constructor
  · simp only [parseDate, findDateMatch_encode, parseIntGroup_jsIntToString]
    rw [if_pos ⟨hlo, hhi⟩]
  · simp only [dtMs, findDateMatch_encode, parseIntGroup_jsIntToString]
    rw [if_pos ⟨hlo, hhi⟩]

/-- Witness for C1 at a negative epoch value. -/
theorem c1_date_codec_roundtrip_witness :
    (dateMin ≤ (-12345 : Int) ∧ (-12345 : Int) ≤ dateMax) ∧
      (parseDate (dtDateTimeEncode (-12345)) = .ok (toISOString (-12345)) ∧
        dtMs (dtDateTimeEncode (-12345)) = some (-12345)) :=
  ⟨⟨by decide, by decide⟩, c1_date_codec_roundtrip (-12345) (by decide) (by decide)⟩

/-- C7, counterexample: `parseDate` does throw on some input — the
wrapper value 8640000000000001 exceeds the representable Date range, so
`toISOString` raises a `RangeError` instead of returning a string. -/
theorem c7_decode_total_cex :
    parseDate ("/Date(8640000000000001)/".data) = .error .rangeErr := by decide

/-- C7 as amended: `parseDate` never throws on an input that does not
match the wrapper pattern — it returns the input unchanged — and on a
matching input it returns the ISO rendering when the embedded value is a
representable time value and throws a `RangeError` exactly otherwise. -/
theorem c7_decode_total_amended (s : Str) :
    (findDateMatch s = none → parseDate s = .ok s) ∧
    (∀ g, findDateMatch s = some g →
      ((dateMin ≤ parseIntGroup g ∧ parseIntGroup g ≤ dateMax) →
        parseDate s = .ok (toISOString (parseIntGroup g))) ∧
      (¬(dateMin ≤ parseIntGroup g ∧ parseIntGroup g ≤ dateMax) →
        parseDate s = .error .rangeErr)) := by
  constructor
  · intro h
    simp only [parseDate, h]
  · intro g hg
    constructor
    · intro hr
      simp only [parseDate, hg]
      rw [if_pos hr]
    · intro hr
      simp only [parseDate, hg]
      rw [if_neg hr]

/-- Witness for C7 on a non-matching input. -/
theorem c7_decode_total_witness :
    findDateMatch ("hello".data) = none ∧ parseDate ("hello".data) = .ok ("hello".data) :=
  ⟨by decide, (c7_decode_total_amended ("hello".data)).1 (by decide)⟩

/-- C8: resolver failure propagation — when the upstream returns zero
station candidates for the from query (or for the to query while the from
query resolves), `searchConnections` throws the error whose message is
`Station not found: <query>` naming that query, and the call trace stops
at the two station lookups: no session, search or price call is made. -/
theorem c8_resolver_failure (fromQ toQ dep : Str) (p : Nat) (u : Upstream) :
    ((∃ rf, u.fromResp = .ok rf ∧ (rf.getD []).head? = none) →
      searchConnections fromQ toQ dep p u =
        (.error (.err (notFoundMsg fromQ)), [CallTag.station fromQ, CallTag.station toQ])) ∧
    (exceptOk (searchStationR fromQ u.fromResp) = true →
      (∃ rt, u.toResp = .ok rt ∧ (rt.getD []).head? = none) →
      searchConnections fromQ toQ dep p u =
        (.error (.err (notFoundMsg toQ)), [CallTag.station fromQ, CallTag.station toQ])) := by
  constructor
  · rintro ⟨rf, hrf, hhd⟩
    have hsf : searchStationR fromQ u.fromResp = .error (.err (notFoundMsg fromQ)) := by
      simp only [searchStationR, hrf, hhd]
    simp only [searchConnections, hsf]
  · rintro hfrom ⟨rt, hrt, hhd⟩
    obtain ⟨fs, hfs⟩ := exceptOk_eq_ok _ hfrom
    have hst : searchStationR toQ u.toResp = .error (.err (notFoundMsg toQ)) := by
      simp only [searchStationR, hrt, hhd]
    simp only [searchConnections, hfs, hst]

/-- Witness for C8: an empty candidate list for the from query. -/
theorem c8_resolver_failure_witness :
    (∃ rf, (⟨.ok (some []), .ok (some []), .ok ['s'], .error (.err []), .ok none⟩ :
        Upstream).fromResp = .ok rf ∧ (rf.getD []).head? = none) ∧
    searchConnections (['F']) (['T']) (['d']) 1
        ⟨.ok (some []), .ok (some []), .ok ['s'], .error (.err []), .ok none⟩ =
      (.error (.err (notFoundMsg ['F'])), [CallTag.station ['F'], CallTag.station ['T']]) :=
  ⟨⟨some [], rfl, rfl⟩,
   (c8_resolver_failure (['F']) (['T']) (['d']) 1
      ⟨.ok (some []), .ok (some []), .ok ['s'], .error (.err []), .ok none⟩).1
    ⟨some [], rfl, rfl⟩⟩

/-- C9: type-filter noninterference in `searchLocations` — for a fixed
upstream response the result is identical for every value of the optional
type-filter argument (which the request body and mapping never consult),
and every returned location has type `station`, the decimal string of the
upstream `iListID` as key, and the upstream name, positionally. -/
theorem c9_type_filter_noninterference (query : Str) (ty ty' : Option Str)
    (resp : Except JsErr (Option (List StationSearchItem))) :
    searchLocations query ty resp = searchLocations query ty' resp ∧
    ∀ rl locs, resp = .ok rl → searchLocations query ty resp = .ok locs →
      locs.length = (rl.getD []).length ∧
      ∀ i item, (rl.getD []).get? i = some item →
        locs.get? i =
          some ⟨jsIntToString item.oItem.iListID, item.oItem.sName, "station".data⟩ := by
  constructor
  · rfl
  · intro rl locs hresp hloc
    rw [hresp] at hloc
    simp only [searchLocations, Except.map] at hloc
    have hlocs : locs = (rl.getD []).map fun item =>
        (⟨jsIntToString item.oItem.iListID, item.oItem.sName, "station".data⟩ : LocationR) := by
      injection hloc with h
      exact h.symm
    subst hlocs
    refine ⟨by simp, ?_⟩
    intro i item hi
    rw [List.get?_map, hi]
    rfl

/-- Witness for C9 with two distinct filter values and a one-item response. -/
theorem c9_type_filter_witness :
    (searchLocations (['q']) none (.ok (some [⟨⟨7, ['N']⟩⟩])) =
      .ok [⟨jsIntToString 7, ['N'], "station".data⟩]) ∧
    ([(⟨jsIntToString 7, ['N'], "station".data⟩ : LocationR)].length =
        ((some [(⟨⟨7, ['N']⟩⟩ : StationSearchItem)]).getD []).length ∧
      ∀ i item, ((some [(⟨⟨7, ['N']⟩⟩ : StationSearchItem)]).getD []).get? i = some item →
        [(⟨jsIntToString 7, ['N'], "station".data⟩ : LocationR)].get? i =
          some ⟨jsIntToString item.oItem.iListID, item.oItem.sName, "station".data⟩) :=
  ⟨by decide,
   (c9_type_filter_noninterference (['q']) none (some ['s'])
      (.ok (some [⟨⟨7, ['N']⟩⟩]))).2 (some [⟨⟨7, ['N']⟩⟩])
      [⟨jsIntToString 7, ['N'], "station".data⟩] rfl (by decide)⟩

/-! ## Concrete upstream fixtures for counterexamples and witnesses -/

/-- C2, counterexample: with the primary call succeeding with one raw
connection and the price call failing, `searchConnections` does not
return that connection — the connection's out-of-range leg timestamp
makes the merge throw a `RangeError`, so the claim's unconditional
"still returns all connections" is false. -/
theorem c2_partial_failure_cex :
    (mkUpstream (.ok ⟨5, some ⟨some [⟨9, [badLeg]⟩]⟩⟩) (.error (.err []))).searchResp =
        .ok ⟨5, some ⟨some [⟨9, [badLeg]⟩]⟩⟩ ∧
    (mkUpstream (.ok ⟨5, some ⟨some [⟨9, [badLeg]⟩]⟩⟩) (.error (.err []))).priceResp =
        .error (.err []) ∧
    (searchConnections (['F']) (['T']) (['d']) 1
        (mkUpstream (.ok ⟨5, some ⟨some [⟨9, [badLeg]⟩]⟩⟩) (.error (.err [])))).1 =
      .error .rangeErr :=
  ⟨rfl, rfl, by decide⟩

/-- C2 as amended: when additionally every leg timestamp decodes without
throwing, a failing price call is swallowed — the search succeeds, keeps
one connection per raw connection with its id, and every price is
absent. -/
theorem c2_partial_failure_amended (fromQ toQ dep : Str) (p : Nat) (u : Upstream)
    (res : ConnectionInfoR) (raws : List RawConnection)
    (hfrom : exceptOk (searchStationR fromQ u.fromResp) = true)
    (hto : exceptOk (searchStationR toQ u.toResp) = true)
    (hsess : exceptOk u.sessionResp = true)
    (hsearch : u.searchResp = .ok res)
    (hconn : res.oConnInfo.bind OConnInfoR.aoConnections = some raws)
    (hlegs : ∀ conn ∈ raws, ∀ leg ∈ conn.aoTrains, legDatesOk leg = true)
    (hne : raws ≠ [])
    (hprice : exceptOk u.priceResp = false) :
    ∃ r, (searchConnections fromQ toQ dep p u).1 = .ok r ∧
      r.handle = some (jsIntToString res.iHandle) ∧
      r.connections.length = raws.length ∧
      ∀ i conn, raws.get? i = some conn →
        ∃ c, r.connections.get? i = some c ∧ c.price = none ∧
          c.id = jsIntToString conn.iID := by
  have hmain := searchConnections_success fromQ toQ dep p u res raws
    hfrom hto hsess hsearch hconn hlegs
  obtain ⟨e, he⟩ : ∃ e, u.priceResp = .error e := by
    cases hpr : u.priceResp with
    | ok v => rw [hpr] at hprice; simp [exceptOk] at hprice
    | error e => exact ⟨e, rfl⟩
  refine ⟨_, by rw [hmain], rfl, by simp, ?_⟩
  intro i conn hi
  have hlen : i < raws.length := by
    by_contra hcon
    rw [List.get?_eq_none.mpr (by omega)] at hi
    exact absurd hi (by simp)
  have he2 : raws.enum.get? i = some (i, conn) := by
    rw [List.get?_enum, hi]
    rfl
  refine ⟨connOfOk dep (priceList raws u.priceResp) i conn, ?_, ?_, rfl⟩
  · rw [List.get?_map, he2]
    rfl
  · show (match (priceList raws u.priceResp).get? i with
      | some q => if 0 < q then some (⟨q, "CZK".data⟩ : Money) else none
      | none => none) = none
    rw [he]
    show (match (raws.map fun _ => (0 : ℚ)).get? i with
      | some q => if 0 < q then some (⟨q, "CZK".data⟩ : Money) else none
      | none => none) = none
    rw [List.get?_map, hi]
    show (if (0 : ℚ) < 0 then some (⟨0, "CZK".data⟩ : Money) else none) = none
    rw [if_neg (lt_irrefl (0 : ℚ))]

/-- Witness for C2 on a one-connection search with a failed price call. -/
theorem c2_partial_failure_witness :
    (exceptOk (searchStationR (['F'])
        (mkUpstream (.ok ⟨5, some ⟨some [⟨9, [goodLeg]⟩]⟩⟩) (.error (.err []))).fromResp) = true ∧
      (mkUpstream (.ok ⟨5, some ⟨some [⟨9, [goodLeg]⟩]⟩⟩) (.error (.err []))).searchResp =
        .ok ⟨5, some ⟨some [⟨9, [goodLeg]⟩]⟩⟩ ∧
      exceptOk (mkUpstream (.ok ⟨5, some ⟨some [⟨9, [goodLeg]⟩]⟩⟩)
        (.error (.err []))).priceResp = false) ∧
    ∃ r, (searchConnections (['F']) (['T']) (['d']) 1
        (mkUpstream (.ok ⟨5, some ⟨some [⟨9, [goodLeg]⟩]⟩⟩) (.error (.err [])))).1 = .ok r ∧
      r.handle = some (jsIntToString 5) ∧
      r.connections.length = ([⟨9, [goodLeg]⟩] : List RawConnection).length ∧
      ∀ i conn, ([⟨9, [goodLeg]⟩] : List RawConnection).get? i = some conn →
        ∃ c, r.connections.get? i = some c ∧ c.price = none ∧
          c.id = jsIntToString conn.iID :=
  ⟨⟨by decide, rfl, rfl⟩,
   c2_partial_failure_amended (['F']) (['T']) (['d']) 1 _ ⟨5, some ⟨some [⟨9, [goodLeg]⟩]⟩⟩
     [⟨9, [goodLeg]⟩] (by decide) (by decide) (by decide) rfl rfl (by decide)
     (by decide) rfl⟩

theorem div100_pos_iff (v : Int) : (0 : ℚ) < ((v : Int) : ℚ) / 100 ↔ 0 < v := by
  rw [div_pos_iff]
  constructor
  · rintro (⟨h, _⟩ | ⟨_, h⟩)
    · exact_mod_cast h
    · norm_num at h
  · intro h
    exact Or.inl ⟨by exact_mod_cast h, by norm_num⟩

/-- C3, counterexample: a successful price response does not guarantee
that its prices are attached — an out-of-range leg timestamp makes the
whole search throw instead, so no connection carries the price at all. -/
theorem c3_positional_merge_cex :
    (mkUpstream (.ok ⟨5, some ⟨some [⟨9, [badLeg]⟩]⟩⟩)
        (.ok (some [⟨some 26900⟩]))).priceResp = .ok (some [⟨some 26900⟩]) ∧
    (searchConnections (['F']) (['T']) (['d']) 1
        (mkUpstream (.ok ⟨5, some ⟨some [⟨9, [badLeg]⟩]⟩⟩)
          (.ok (some [⟨some 26900⟩])))).1 = .error .rangeErr :=
  ⟨rfl, by decide⟩

/-- C3 as amended: when every leg timestamp decodes without throwing, the
merge is positional — the raw minor-unit price at index `i`, divided by
100, is attached to connection `i` with currency CZK when positive, and a
raw price of exactly zero, a negative raw price, or a missing index
yields an absent price, never a zero-amount price. -/
theorem c3_positional_merge_amended (fromQ toQ dep : Str) (p : Nat) (u : Upstream)
    (res : ConnectionInfoR) (raws : List RawConnection) (ps : List PriceInfo)
    (hfrom : exceptOk (searchStationR fromQ u.fromResp) = true)
    (hto : exceptOk (searchStationR toQ u.toResp) = true)
    (hsess : exceptOk u.sessionResp = true)
    (hsearch : u.searchResp = .ok res)
    (hconn : res.oConnInfo.bind OConnInfoR.aoConnections = some raws)
    (hlegs : ∀ conn ∈ raws, ∀ leg ∈ conn.aoTrains, legDatesOk leg = true)
    (hpr : u.priceResp = .ok (some ps)) :
    ∃ r, (searchConnections fromQ toQ dep p u).1 = .ok r ∧
      r.connections.length = raws.length ∧
      ∀ i conn, raws.get? i = some conn →
        ∃ c, r.connections.get? i = some c ∧
          (∀ pi, ps.get? i = some pi →
            ((0 : Int) < pi.iPrice.getD 0 →
              c.price = some ⟨((pi.iPrice.getD 0 : Int) : ℚ) / 100, "CZK".data⟩) ∧
            (pi.iPrice.getD 0 = 0 → c.price = none) ∧
            (pi.iPrice.getD 0 < 0 → c.price = none)) ∧
          (ps.get? i = none → c.price = none) := by
  have hmain := searchConnections_success fromQ toQ dep p u res raws
    hfrom hto hsess hsearch hconn hlegs
  refine ⟨_, by rw [hmain], by simp, ?_⟩
  intro i conn hi
  have he2 : raws.enum.get? i = some (i, conn) := by
    rw [List.get?_enum, hi]
    rfl
  refine ⟨connOfOk dep (priceList raws u.priceResp) i conn, by rw [List.get?_map, he2]; rfl,
    ?_, ?_⟩
  · intro pi hpi
    have hplist : (priceList raws u.priceResp).get? i =
        some (((pi.iPrice.getD 0 : Int) : ℚ) / 100) := by
      rw [hpr]
      show ((ps.map fun q => ((q.iPrice.getD 0 : Int) : ℚ) / 100).get? i) = _
      rw [List.get?_map, hpi]
      rfl
    refine ⟨?_, ?_, ?_⟩
    · intro hpos
      show (match (priceList raws u.priceResp).get? i with
        | some q => if 0 < q then some (⟨q, "CZK".data⟩ : Money) else none
        | none => none) = _
      rw [hplist]
      show (if (0 : ℚ) < ((pi.iPrice.getD 0 : Int) : ℚ) / 100 then
          some (⟨((pi.iPrice.getD 0 : Int) : ℚ) / 100, "CZK".data⟩ : Money) else none) = _
      rw [if_pos ((div100_pos_iff _).mpr hpos)]
    · intro h0
      show (match (priceList raws u.priceResp).get? i with
        | some q => if 0 < q then some (⟨q, "CZK".data⟩ : Money) else none
        | none => none) = _
      rw [hplist, h0]
      show (if (0 : ℚ) < ((0 : Int) : ℚ) / 100 then
          some (⟨((0 : Int) : ℚ) / 100, "CZK".data⟩ : Money) else none) = _
      rw [if_neg (by norm_num)]
    · intro hneg
      show (match (priceList raws u.priceResp).get? i with
        | some q => if 0 < q then some (⟨q, "CZK".data⟩ : Money) else none
        | none => none) = _
      rw [hplist]
      show (if (0 : ℚ) < ((pi.iPrice.getD 0 : Int) : ℚ) / 100 then
          some (⟨((pi.iPrice.getD 0 : Int) : ℚ) / 100, "CZK".data⟩ : Money) else none) = _
      rw [if_neg fun hc => absurd ((div100_pos_iff _).mp hc) (by omega)]
  · intro hnone
    show (match (priceList raws u.priceResp).get? i with
      | some q => if 0 < q then some (⟨q, "CZK".data⟩ : Money) else none
      | none => none) = _
    rw [hpr]
    show (match (ps.map fun q => ((q.iPrice.getD 0 : Int) : ℚ) / 100).get? i with
      | some q => if 0 < q then some (⟨q, "CZK".data⟩ : Money) else none
      | none => none) = _
    rw [List.get?_map, hnone]
    rfl

/-- Witness for C3: one connection, raw price 26900 becomes 269 CZK. -/
theorem c3_positional_merge_witness :
    ((mkUpstream (.ok ⟨5, some ⟨some [⟨9, [goodLeg]⟩]⟩⟩)
        (.ok (some [⟨some 26900⟩]))).priceResp = .ok (some [⟨some 26900⟩]) ∧
      (0 : Int) < (26900 : Int)) ∧
    ∃ r, (searchConnections (['F']) (['T']) (['d']) 1
        (mkUpstream (.ok ⟨5, some ⟨some [⟨9, [goodLeg]⟩]⟩⟩)
          (.ok (some [⟨some 26900⟩])))).1 = .ok r ∧
      r.connections.length = ([⟨9, [goodLeg]⟩] : List RawConnection).length ∧
      ∀ i conn, ([⟨9, [goodLeg]⟩] : List RawConnection).get? i = some conn →
        ∃ c, r.connections.get? i = some c ∧
          (∀ pi, ([⟨some 26900⟩] : List PriceInfo).get? i = some pi →
            ((0 : Int) < pi.iPrice.getD 0 →
              c.price = some ⟨((pi.iPrice.getD 0 : Int) : ℚ) / 100, "CZK".data⟩) ∧
            (pi.iPrice.getD 0 = 0 → c.price = none) ∧
            (pi.iPrice.getD 0 < 0 → c.price = none)) ∧
          (([⟨some 26900⟩] : List PriceInfo).get? i = none → c.price = none) :=
  ⟨⟨rfl, by decide⟩,
   c3_positional_merge_amended (['F']) (['T']) (['d']) 1 _ ⟨5, some ⟨some [⟨9, [goodLeg]⟩]⟩⟩
     [⟨9, [goodLeg]⟩] [⟨some 26900⟩] (by decide) (by decide) (by decide) rfl rfl
     (by decide) rfl⟩

/-- C10, counterexample: a successful price response shorter than the
connection list does not guarantee one domain connection per raw
connection — an out-of-range leg timestamp still makes the whole search
throw. -/
theorem c10_price_length_cex :
    (mkUpstream (.ok ⟨5, some ⟨some [⟨9, [badLeg]⟩, ⟨11, [goodLeg]⟩]⟩⟩)
        (.ok (some []))).priceResp = .ok (some []) ∧
    ([] : List PriceInfo).length <
      ([⟨9, [badLeg]⟩, ⟨11, [goodLeg]⟩] : List RawConnection).length ∧
    (searchConnections (['F']) (['T']) (['d']) 1
        (mkUpstream (.ok ⟨5, some ⟨some [⟨9, [badLeg]⟩, ⟨11, [goodLeg]⟩]⟩⟩)
          (.ok (some [])))).1 = .error .rangeErr :=
  ⟨rfl, by decide, by decide⟩

/-- C10 as amended: when every leg timestamp decodes without throwing, a
price list shorter than the connection list is safe — the search still
returns one domain connection per raw connection, and every connection at
an index beyond the end of the price list has an absent price (the index
lookup is total). -/
theorem c10_price_length_amended (fromQ toQ dep : Str) (p : Nat) (u : Upstream)
    (res : ConnectionInfoR) (raws : List RawConnection) (ps : List PriceInfo)
    (hfrom : exceptOk (searchStationR fromQ u.fromResp) = true)
    (hto : exceptOk (searchStationR toQ u.toResp) = true)
    (hsess : exceptOk u.sessionResp = true)
    (hsearch : u.searchResp = .ok res)
    (hconn : res.oConnInfo.bind OConnInfoR.aoConnections = some raws)
    (hlegs : ∀ conn ∈ raws, ∀ leg ∈ conn.aoTrains, legDatesOk leg = true)
    (hpr : u.priceResp = .ok (some ps))
    (hshort : ps.length < raws.length) :
    ∃ r, (searchConnections fromQ toQ dep p u).1 = .ok r ∧
      r.connections.length = raws.length ∧
      ∀ i conn, raws.get? i = some conn → ps.length ≤ i →
        ∃ c, r.connections.get? i = some c ∧ c.price = none := by
  have hmain := searchConnections_success fromQ toQ dep p u res raws
    hfrom hto hsess hsearch hconn hlegs
  refine ⟨_, by rw [hmain], by simp, ?_⟩
  intro i conn hi hbeyond
  have he2 : raws.enum.get? i = some (i, conn) := by
    rw [List.get?_enum, hi]
    rfl
  refine ⟨connOfOk dep (priceList raws u.priceResp) i conn,
    by rw [List.get?_map, he2]; rfl, ?_⟩
  show (match (priceList raws u.priceResp).get? i with
    | some q => if 0 < q then some (⟨q, "CZK".data⟩ : Money) else none
    | none => none) = none
  rw [hpr]
  show (match (ps.map fun q => ((q.iPrice.getD 0 : Int) : ℚ) / 100).get? i with
    | some q => if 0 < q then some (⟨q, "CZK".data⟩ : Money) else none
    | none => none) = none
  rw [List.get?_eq_none.mpr (by simp; omega)]

/-- Witness for C10: two connections, a one-element price list. -/
theorem c10_price_length_witness :
    (([⟨some 100⟩] : List PriceInfo).length <
      ([⟨9, [goodLeg]⟩, ⟨11, [goodLeg]⟩] : List RawConnection).length) ∧
    ∃ r, (searchConnections (['F']) (['T']) (['d']) 1
        (mkUpstream (.ok ⟨5, some ⟨some [⟨9, [goodLeg]⟩, ⟨11, [goodLeg]⟩]⟩⟩)
          (.ok (some [⟨some 100⟩])))).1 = .ok r ∧
      r.connections.length = ([⟨9, [goodLeg]⟩, ⟨11, [goodLeg]⟩] : List RawConnection).length ∧
      ∀ i conn, ([⟨9, [goodLeg]⟩, ⟨11, [goodLeg]⟩] : List RawConnection).get? i = some conn →
        ([⟨some 100⟩] : List PriceInfo).length ≤ i →
        ∃ c, r.connections.get? i = some c ∧ c.price = none :=
  ⟨by decide,
   c10_price_length_amended (['F']) (['T']) (['d']) 1 _
     ⟨5, some ⟨some [⟨9, [goodLeg]⟩, ⟨11, [goodLeg]⟩]⟩⟩
     [⟨9, [goodLeg]⟩, ⟨11, [goodLeg]⟩] [⟨some 100⟩] (by decide) (by decide) (by decide)
     rfl rfl (by decide) rfl (by decide)⟩

theorem connOfOk_duration (dep : Str) (prices : List ℚ) (idx : Nat) (conn : RawConnection)
    (l1 ln : RawLeg) (m1 m2 : Int)
    (hh : conn.aoTrains.head? = some l1) (hl : conn.aoTrains.getLast? = some ln)
    (h1 : dtMs l1.dtDateTime1 = some m1) (h2 : dtMs ln.dtDateTime2 = some m2) :
    (connOfOk dep prices idx conn).duration = some (jsRoundDiv (m2 - m1) 60000) := by
  have hr1 := dtMs_range _ _ h1
  have hr2 := dtMs_range _ _ h2
  have hdep : ((conn.aoTrains.map legOfOk).head?).map ConnectionLeg.departure =
      some (toISOString m1) := by
    rw [List.head?_map, hh]
    show some (legOfOk l1).departure = _
    show some (exceptD (parseDate l1.dtDateTime1)) = _
    rw [parseDate_of_dtMs _ _ h1]
    rfl
  have harr : ((conn.aoTrains.map legOfOk).getLast?).map ConnectionLeg.arrival =
      some (toISOString m2) := by
    rw [List.getLast?_map, hl]
    show some (legOfOk ln).arrival = _
    show some (exceptD (parseDate ln.dtDateTime2)) = _
    rw [parseDate_of_dtMs _ _ h2]
    rfl
  show durationOf
      (jsOr (((conn.aoTrains.map legOfOk).head?).map ConnectionLeg.departure) dep)
      (jsOr (((conn.aoTrains.map legOfOk).getLast?).map ConnectionLeg.arrival) dep) = _
  rw [hdep, harr]
  show durationOf (if toISOString m1 = [] then dep else toISOString m1)
      (if toISOString m2 = [] then dep else toISOString m2) = _
  rw [if_neg (toISOString_ne_nil m1), if_neg (toISOString_ne_nil m2)]
  unfold durationOf
  rw [jsDateParse_toISOString m2 hr2.1 hr2.2]
  rw [Option.some_bind]
  rw [jsDateParse_toISOString m1 hr1.1 hr1.2]
  rw [Option.some_bind]

set_option maxRecDepth 1000000 in
/-- C4, counterexample: a connection whose last-leg arrival precedes its
first-leg departure is returned with a negative duration, violating the
claimed `duration ≥ 0`. -/
theorem c4_duration_cex :
    ((okValue (searchConnections (['F']) (['T']) (['d']) 1
        (mkUpstream (.ok ⟨5, some ⟨some [⟨9, [negLeg]⟩]⟩⟩) (.error (.err [])))).1).bind
      fun r => r.connections.head?.map Connection.duration) = some (some (-1000)) ∧
    (-1000 : Int) < 0 :=
  ⟨by decide, by decide⟩

/-- C4 as amended: for a returned connection whose legs all decode and
whose first-leg departure and last-leg arrival wrappers carry values
`m1`, `m2`, the duration equals `Math.round((m2 - m1)/60000)`, which is
`⌊(m2 - m1)/60000 + 1/2⌋`; it is nonnegative whenever the arrival is not
earlier than the departure. -/
theorem c4_duration_amended (fromQ toQ dep : Str) (p : Nat) (u : Upstream)
    (res : ConnectionInfoR) (raws : List RawConnection)
    (hfrom : exceptOk (searchStationR fromQ u.fromResp) = true)
    (hto : exceptOk (searchStationR toQ u.toResp) = true)
    (hsess : exceptOk u.sessionResp = true)
    (hsearch : u.searchResp = .ok res)
    (hconn : res.oConnInfo.bind OConnInfoR.aoConnections = some raws)
    (hlegs : ∀ conn ∈ raws, ∀ leg ∈ conn.aoTrains, legDatesOk leg = true) :
    ∃ r, (searchConnections fromQ toQ dep p u).1 = .ok r ∧
      r.connections.length = raws.length ∧
      ∀ i conn, raws.get? i = some conn →
        ∀ l1 ln m1 m2, conn.aoTrains.head? = some l1 → conn.aoTrains.getLast? = some ln →
          dtMs l1.dtDateTime1 = some m1 → dtMs ln.dtDateTime2 = some m2 →
          ∃ c, r.connections.get? i = some c ∧
            c.duration = some (jsRoundDiv (m2 - m1) 60000) ∧
            jsRoundDiv (m2 - m1) 60000 = ⌊(((m2 : ℚ) - (m1 : ℚ)) / 60000 + 1 / 2)⌋ ∧
            (m1 ≤ m2 → 0 ≤ jsRoundDiv (m2 - m1) 60000) := by
  have hmain := searchConnections_success fromQ toQ dep p u res raws
    hfrom hto hsess hsearch hconn hlegs
  refine ⟨_, by rw [hmain], by simp, ?_⟩
  intro i conn hi l1 ln m1 m2 hhd hlst h1 h2
  have he2 : raws.enum.get? i = some (i, conn) := by
    rw [List.get?_enum, hi]
    rfl
  refine ⟨connOfOk dep (priceList raws u.priceResp) i conn,
    by rw [List.get?_map, he2]; rfl,
    connOfOk_duration _ _ _ _ l1 ln m1 m2 hhd hlst h1 h2, ?_, ?_⟩
  · rw [mathRound_div_eq _ _ (by norm_num)]
    congr 1
    push_cast
    ring
  · intro hle
    exact jsRoundDiv_nonneg _ _ (by omega) (by norm_num)

/-- Witness for C4 on a forward-in-time single-leg connection. -/
theorem c4_duration_witness :
    (dtMs posLeg.dtDateTime1 = some 0 ∧ dtMs posLeg.dtDateTime2 = some 60000000) ∧
    ∃ r, (searchConnections (['F']) (['T']) (['d']) 1
        (mkUpstream (.ok ⟨5, some ⟨some [⟨9, [posLeg]⟩]⟩⟩) (.error (.err [])))).1 = .ok r ∧
      r.connections.length = ([⟨9, [posLeg]⟩] : List RawConnection).length ∧
      ∀ i conn, ([⟨9, [posLeg]⟩] : List RawConnection).get? i = some conn →
        ∀ l1 ln m1 m2, conn.aoTrains.head? = some l1 → conn.aoTrains.getLast? = some ln →
          dtMs l1.dtDateTime1 = some m1 → dtMs ln.dtDateTime2 = some m2 →
          ∃ c, r.connections.get? i = some c ∧
            c.duration = some (jsRoundDiv (m2 - m1) 60000) ∧
            jsRoundDiv (m2 - m1) 60000 = ⌊(((m2 : ℚ) - (m1 : ℚ)) / 60000 + 1 / 2)⌋ ∧
            (m1 ≤ m2 → 0 ≤ jsRoundDiv (m2 - m1) 60000) :=
  ⟨⟨by decide, by decide⟩,
   c4_duration_amended (['F']) (['T']) (['d']) 1 _ ⟨5, some ⟨some [⟨9, [posLeg]⟩]⟩⟩
     [⟨9, [posLeg]⟩] (by decide) (by decide) (by decide) rfl rfl (by decide)⟩

/-- C5, counterexample: a raw connection with an empty train list is
still turned into a domain connection, with an empty leg list and a
transfer count of −1 — violating `transferCount ≥ 0` and the claim that
such a connection is never constructed. -/
theorem c5_transfers_cex :
    ((okValue (searchConnections (['F']) (['T']) (['d']) 1
        (mkUpstream (.ok ⟨5, some ⟨some [⟨7, []⟩]⟩⟩) (.error (.err [])))).1).bind
      fun r => r.connections.head?.map fun c => (c.transfers, c.legs)) =
        some ((-1 : Int), ([] : List ConnectionLeg)) ∧
    (-1 : Int) < 0 :=
  ⟨by decide, by decide⟩

/-- C5 as amended: every returned connection satisfies
`transfers = legs.length − 1` (in integers); when the raw connection has
at least one train the count is nonnegative and the leg list nonempty. -/
theorem c5_transfers_amended (fromQ toQ dep : Str) (p : Nat) (u : Upstream)
    (res : ConnectionInfoR) (raws : List RawConnection)
    (hfrom : exceptOk (searchStationR fromQ u.fromResp) = true)
    (hto : exceptOk (searchStationR toQ u.toResp) = true)
    (hsess : exceptOk u.sessionResp = true)
    (hsearch : u.searchResp = .ok res)
    (hconn : res.oConnInfo.bind OConnInfoR.aoConnections = some raws)
    (hlegs : ∀ conn ∈ raws, ∀ leg ∈ conn.aoTrains, legDatesOk leg = true) :
    ∃ r, (searchConnections fromQ toQ dep p u).1 = .ok r ∧
      r.connections.length = raws.length ∧
      ∀ i conn, raws.get? i = some conn →
        ∃ c, r.connections.get? i = some c ∧
          c.transfers = (c.legs.length : Int) - 1 ∧
          (conn.aoTrains ≠ [] → 0 ≤ c.transfers ∧ c.legs ≠ []) := by
  have hmain := searchConnections_success fromQ toQ dep p u res raws
    hfrom hto hsess hsearch hconn hlegs
  refine ⟨_, by rw [hmain], by simp, ?_⟩
  intro i conn hi
  have he2 : raws.enum.get? i = some (i, conn) := by
    rw [List.get?_enum, hi]
    rfl
  refine ⟨connOfOk dep (priceList raws u.priceResp) i conn,
    by rw [List.get?_map, he2]; rfl, ?_, ?_⟩
  · show ((conn.aoTrains.length : Int) - 1) = (((conn.aoTrains.map legOfOk).length : Int)) - 1
    rw [List.length_map]
  · intro hne
    have hpos : 0 < conn.aoTrains.length := List.length_pos.mpr hne
    constructor
    · show 0 ≤ (conn.aoTrains.length : Int) - 1
      omega
    · show conn.aoTrains.map legOfOk ≠ []
      simp [hne]

/-- Witness for C5 on a one-leg connection. -/
theorem c5_transfers_witness :
    (([⟨9, [goodLeg]⟩] : List RawConnection) ≠ []) ∧
    ∃ r, (searchConnections (['F']) (['T']) (['d']) 1
        (mkUpstream (.ok ⟨5, some ⟨some [⟨9, [goodLeg]⟩]⟩⟩) (.error (.err [])))).1 = .ok r ∧
      r.connections.length = ([⟨9, [goodLeg]⟩] : List RawConnection).length ∧
      ∀ i conn, ([⟨9, [goodLeg]⟩] : List RawConnection).get? i = some conn →
        ∃ c, r.connections.get? i = some c ∧
          c.transfers = (c.legs.length : Int) - 1 ∧
          (conn.aoTrains ≠ [] → 0 ≤ c.transfers ∧ c.legs ≠ []) :=
  ⟨by decide,
   c5_transfers_amended (['F']) (['T']) (['d']) 1 _ ⟨5, some ⟨some [⟨9, [goodLeg]⟩]⟩⟩
     [⟨9, [goodLeg]⟩] (by decide) (by decide) (by decide) rfl rfl (by decide)⟩

/-- C6, counterexample: when the primary call succeeds with a present but
empty connection list, the price-lookup call is still issued (the claim
says it must not be), although the result is still a successful empty
connections list. -/
theorem c6_empty_result_cex :
    searchConnections (['F']) (['T']) (['d']) 1
        (mkUpstream (.ok ⟨5, some ⟨some []⟩⟩) (.ok (some []))) =
      (.ok ⟨some (jsIntToString 5), []⟩,
        [CallTag.station ['F'], CallTag.station ['T'], CallTag.createSession,
          CallTag.searchConn, CallTag.getPrice]) ∧
    CallTag.getPrice ∈ (searchConnections (['F']) (['T']) (['d']) 1
        (mkUpstream (.ok ⟨5, some ⟨some []⟩⟩) (.ok (some [])))).2 :=
  ⟨by decide, by decide⟩

/-- C6 as amended: a search whose primary call succeeds with zero raw
connections returns a successful empty connections list and no error in
both zero-shapes; when the connection list is absent the search returns
immediately without the price call, but when it is present and empty the
price-lookup call is still issued. -/
theorem c6_empty_result_amended (fromQ toQ dep : Str) (p : Nat) (u : Upstream)
    (res : ConnectionInfoR)
    (hfrom : exceptOk (searchStationR fromQ u.fromResp) = true)
    (hto : exceptOk (searchStationR toQ u.toResp) = true)
    (hsess : exceptOk u.sessionResp = true)
    (hsearch : u.searchResp = .ok res) :
    (res.oConnInfo.bind OConnInfoR.aoConnections = none →
      searchConnections fromQ toQ dep p u =
        (.ok ⟨none, []⟩,
          [CallTag.station fromQ, CallTag.station toQ, CallTag.createSession,
            CallTag.searchConn])) ∧
    (res.oConnInfo.bind OConnInfoR.aoConnections = some [] →
      searchConnections fromQ toQ dep p u =
        (.ok ⟨some (jsIntToString res.iHandle), []⟩,
          [CallTag.station fromQ, CallTag.station toQ, CallTag.createSession,
            CallTag.searchConn, CallTag.getPrice])) := by
  constructor
  · intro hnone
    obtain ⟨fs, hfs⟩ := exceptOk_eq_ok _ hfrom
    obtain ⟨ts, hts⟩ := exceptOk_eq_ok _ hto
    obtain ⟨sid, hsid⟩ := exceptOk_eq_ok _ hsess
    simp only [searchConnections, hfs, hts, hsid, hsearch, hnone]
    rfl
  · intro hempty
    have hmain := searchConnections_success fromQ toQ dep p u res []
      hfrom hto hsess hsearch hempty (by intro conn h; exact absurd h (by simp))
    rw [hmain]
    rfl

/-- Witness for C6 on an absent connection list. -/
theorem c6_empty_result_witness :
    ((⟨5, none⟩ : ConnectionInfoR).oConnInfo.bind OConnInfoR.aoConnections = none) ∧
    searchConnections (['F']) (['T']) (['d']) 1
        (mkUpstream (.ok ⟨5, none⟩) (.ok none)) =
      (.ok ⟨none, []⟩,
        [CallTag.station ['F'], CallTag.station ['T'], CallTag.createSession,
          CallTag.searchConn]) :=
  ⟨rfl,
   (c6_empty_result_amended (['F']) (['T']) (['d']) 1
      (mkUpstream (.ok ⟨5, none⟩) (.ok none)) ⟨5, none⟩
      (by decide) (by decide) (by decide) rfl).1 rfl⟩

end CdMcp
